import Mathlib

/-!
EyeAssist — verification of the signal-extraction / calibration / command pipeline

Shallow embedding of the gaze-and-blink input system: the gaze classifier,
the per-eye gaze-ratio edge-case policy, the calibration loaders and the
calibration session, the blink/double-blink state machine, the angle
accumulator and the moving-average signal filter, each translated from the
corresponding Python source, together with theorems settling the frozen
claims about them.

Numeric values are modelled over `ℚ` (geometry over `ℝ` where a Euclidean
distance is taken); Python exceptions are modelled with `Option`.
-/

namespace EyeAssist

/-- The six calibration thresholds (`CalibrationData`, `face_tracker/calibration.py`;
the same six values back the `calib_data` dict of `main.py`). -/
structure CalibrationData where
  lu_side : ℚ
  ru_side : ℚ
  ld_side : ℚ
  rd_side : ℚ
  tb : ℚ
  mouth : ℚ
deriving DecidableEq, Repr

/-- The five position booleans returned by the classifier
(`center_flag, right_flag, left_flag, top_flag, bot_flag`). -/
structure PositionFlags where
  center : Bool
  right : Bool
  left : Bool
  top : Bool
  bot : Bool
deriving DecidableEq, Repr

/-- Embeds `GazeAnalyzer.analyze_position` (`face_tracker/gaze_analyzer.py`):
all five flags start `False`; the vertical test `tb_ratio > self.calib.tb`
chooses top or bottom, then the corner thresholds of the chosen vertical
split the horizontal axis with strict `<` / `>`. -/
def GazeAnalyzer.analyze_position (calib : CalibrationData)
    (side_ratio tb_ratio : ℚ) : PositionFlags :=
  if calib.tb < tb_ratio then
    if side_ratio < calib.ru_side then
      { center := false, right := true, left := false, top := true, bot := false }
    else if calib.lu_side < side_ratio then
      { center := false, right := false, left := true, top := true, bot := false }
    else
      { center := true, right := false, left := false, top := true, bot := false }
  else
    if side_ratio < calib.rd_side then
      { center := false, right := true, left := false, top := false, bot := true }
    else if calib.ld_side < side_ratio then
      { center := false, right := false, left := true, top := false, bot := true }
    else
      { center := true, right := false, left := false, top := false, bot := true }

/-- Embeds `EyeTrackingApp.determine_gaze_position` (`main.py` lines 101-128): the same
two-level decision, reading the thresholds out of the `calib_data` dict
(`ru`/`lu` for top, `rd`/`ld` for bottom). -/
def EyeTrackingApp.determine_gaze_position (calib : CalibrationData)
    (tb_ratio side_gaze_ratio : ℚ) : PositionFlags :=
  if calib.tb < tb_ratio then
    if side_gaze_ratio < calib.ru_side then
      { center := false, right := true, left := false, top := true, bot := false }
    else if calib.lu_side < side_gaze_ratio then
      { center := false, right := false, left := true, top := true, bot := false }
    else
      { center := true, right := false, left := false, top := true, bot := false }
  else
    if side_gaze_ratio < calib.rd_side then
      { center := false, right := true, left := false, top := false, bot := true }
    else if calib.ld_side < side_gaze_ratio then
      { center := false, right := false, left := true, top := false, bot := true }
    else
      { center := true, right := false, left := false, top := false, bot := true }

/-- Embeds `FileManager.get_default_calibration` (`utils/utils.py`), as rationals:
`lu=0.8, ru=1.2, ld=0.8, rd=1.2, tb=1.0, mouth=0.5`. -/
def default_calibration : CalibrationData :=
  { lu_side := 4/5, ru_side := 6/5, ld_side := 4/5, rd_side := 6/5, tb := 1, mouth := 1/2 }

/-- The two classifier translations agree pointwise. -/
lemma determine_eq_analyze (calib : CalibrationData) (side_ratio tb_ratio : ℚ) :
    EyeTrackingApp.determine_gaze_position calib tb_ratio side_ratio
      = GazeAnalyzer.analyze_position calib side_ratio tb_ratio := rfl

/-- C1 counterexample: under the documented default profile
(`ru_side = 1.2 > lu_side = 0.8`), an input whose `side_ratio` equals the
chosen right-corner threshold (`1.2`, top half selected by `tb_ratio = 2`)
classifies as `left`, not `center` — the claim's "boundary values resolve to
center, never to left or right" is false. -/
theorem claim1_counterexample :
    (6 : ℚ)/5 = default_calibration.ru_side
    ∧ default_calibration.tb < 2
    ∧ GazeAnalyzer.analyze_position default_calibration (6/5) 2
        = { center := false, right := false, left := true, top := true, bot := false } := by
  refine ⟨by norm_num [default_calibration], by norm_num [default_calibration], ?_⟩
  simp only [GazeAnalyzer.analyze_position, default_calibration]
  norm_num

/-- C1 (amended): the classifier is a pure function of
`(side_ratio, tb_ratio, profile)`; `top` is set exactly when
`tb_ratio > profile.tb`; and, provided the corner's right threshold does not
exceed its left threshold (`ru_side ≤ lu_side`, `rd_side ≤ ld_side`, as
calibrated profiles satisfy), a `side_ratio` exactly equal to either chosen
corner threshold resolves to `center`, never to `left` or `right`, because
the comparisons are strict.  (The documented default profile violates that
ordering, and there `side_ratio = ru_side` resolves to `left`.) -/
theorem analyze_position_boundary (calib : CalibrationData) (side_ratio tb_ratio : ℚ)
    (hu : calib.ru_side ≤ calib.lu_side) (hd : calib.rd_side ≤ calib.ld_side) :
    ((GazeAnalyzer.analyze_position calib side_ratio tb_ratio).top = true
        ↔ calib.tb < tb_ratio)
    ∧ (calib.tb < tb_ratio →
        (side_ratio = calib.ru_side ∨ side_ratio = calib.lu_side) →
        GazeAnalyzer.analyze_position calib side_ratio tb_ratio
          = { center := true, right := false, left := false, top := true, bot := false })
    ∧ (¬ calib.tb < tb_ratio →
        (side_ratio = calib.rd_side ∨ side_ratio = calib.ld_side) →
        GazeAnalyzer.analyze_position calib side_ratio tb_ratio
          = { center := true, right := false, left := false, top := false, bot := true })
    ∧ EyeTrackingApp.determine_gaze_position calib tb_ratio side_ratio
        = GazeAnalyzer.analyze_position calib side_ratio tb_ratio := by
  refine ⟨?_, ?_, ?_, determine_eq_analyze calib side_ratio tb_ratio⟩
  · unfold GazeAnalyzer.analyze_position
    split_ifs <;> simp_all
  · intro ht hside
    unfold GazeAnalyzer.analyze_position
    rw [if_pos ht]
    rcases hside with h | h
    · rw [h, if_neg (lt_irrefl _), if_neg (not_lt.mpr hu)]
    · rw [h, if_neg (not_lt.mpr hu), if_neg (lt_irrefl _)]
  · intro ht hside
    unfold GazeAnalyzer.analyze_position
    rw [if_neg ht]
    rcases hside with h | h
    · rw [h, if_neg (lt_irrefl _), if_neg (not_lt.mpr hd)]
    · rw [h, if_neg (not_lt.mpr hd), if_neg (lt_irrefl _)]

/-- C1 witness: a calibrated profile with `ru_side = 1/2 ≤ lu_side = 1`;
at `side_ratio = ru_side` and `tb_ratio = 2` the classifier returns top-center. -/
theorem claim1_witness :
    GazeAnalyzer.analyze_position
        { lu_side := 1, ru_side := 1/2, ld_side := 1, rd_side := 1/2, tb := 1, mouth := 0 }
        (1/2) 2
      = { center := true, right := false, left := false, top := true, bot := false } :=
  (analyze_position_boundary
      { lu_side := 1, ru_side := 1/2, ld_side := 1, rd_side := 1/2, tb := 1, mouth := 0 }
      (1/2) 2 (by norm_num) (by norm_num)).2.1 (by norm_num) (Or.inl rfl)

/-- C10: the classifier always sets exactly one of `{top, bot}` and exactly
one of `{left, center, right}` — never zero or two flags on an axis — and the
`main.py` variant produces the same flags. -/
theorem analyze_position_exactly_one (calib : CalibrationData) (side_ratio tb_ratio : ℚ) :
    (((GazeAnalyzer.analyze_position calib side_ratio tb_ratio).top = true
        ∧ (GazeAnalyzer.analyze_position calib side_ratio tb_ratio).bot = false)
      ∨ ((GazeAnalyzer.analyze_position calib side_ratio tb_ratio).top = false
        ∧ (GazeAnalyzer.analyze_position calib side_ratio tb_ratio).bot = true))
    ∧ (((GazeAnalyzer.analyze_position calib side_ratio tb_ratio).right = true
        ∧ (GazeAnalyzer.analyze_position calib side_ratio tb_ratio).left = false
        ∧ (GazeAnalyzer.analyze_position calib side_ratio tb_ratio).center = false)
      ∨ ((GazeAnalyzer.analyze_position calib side_ratio tb_ratio).right = false
        ∧ (GazeAnalyzer.analyze_position calib side_ratio tb_ratio).left = true
        ∧ (GazeAnalyzer.analyze_position calib side_ratio tb_ratio).center = false)
      ∨ ((GazeAnalyzer.analyze_position calib side_ratio tb_ratio).right = false
        ∧ (GazeAnalyzer.analyze_position calib side_ratio tb_ratio).left = false
        ∧ (GazeAnalyzer.analyze_position calib side_ratio tb_ratio).center = true))
    ∧ EyeTrackingApp.determine_gaze_position calib tb_ratio side_ratio
        = GazeAnalyzer.analyze_position calib side_ratio tb_ratio := by
  refine ⟨?_, ?_, determine_eq_analyze calib side_ratio tb_ratio⟩ <;>
    · unfold GazeAnalyzer.analyze_position
      split_ifs <;> simp

/-! Section: Per-eye gaze ratio (C4) -/

/-- Embeds `EyeDetector.get_single_eye_gaze_ratio` (`eye_detection.py` lines 100-147),
after the external `cv2` operations: `crop_empty` is `gray_eye.size == 0`,
`left_side_white` / `right_side_white` are the white-pixel counts of the two
halves of the thresholded eye.  Branch order is that of the source: empty crop
first, then `right == 0 → 2.0`, then `left == 0 → 0.5`, else the quotient. -/
def EyeDetector.get_single_eye_gaze_ratio (crop_empty : Bool)
    (left_side_white right_side_white : ℕ) : ℚ :=
  if crop_empty then 1
  else if right_side_white = 0 then 2
  else if left_side_white = 0 then 1/2
  else (left_side_white : ℚ) / right_side_white

/-- Embeds `EyeTracker.get_gaze_ratio` (`face_tracker/eye_tracker.py` lines 56-89):
here the empty check is `threshold_eye.size == 0` and there is *no*
`left_white == 0` branch — that case falls through to `left_white / right_white`. -/
def EyeTracker.get_gaze_ratio (thresh_empty : Bool)
    (left_white right_white : ℕ) : ℚ :=
  if thresh_empty then 1
  else if right_white = 0 then 2
  else (left_white : ℚ) / right_white

/-- C4 counterexample: the `face_tracker` per-eye gaze-ratio computation,
given a non-empty crop with `left_white = 0` and `right_white = 5 > 0`,
returns `0`, not the `0.5` the claim requires. -/
theorem claim4_counterexample :
    EyeTracker.get_gaze_ratio false 0 5 = 0 ∧ (0 : ℚ) ≠ 1/2 := by
  constructor
  · simp [EyeTracker.get_gaze_ratio]
  · norm_num

/-- C4 (amended): `EyeDetector.get_single_eye_gaze_ratio` resolves the edge
cases exactly in the claimed priority order (empty crop → 1.0; right-half
count 0 → 2.0; left-half count 0 with right-half > 0 → 0.5; else
`left/right`), and both per-eye computations are never negative; but the
`face_tracker` variant `EyeTracker.get_gaze_ratio` has no left-zero branch
and returns `0` there instead of `0.5`. -/
theorem gaze_ratio_edge_cases (crop_empty : Bool) (l r : ℕ) :
    (crop_empty = true → EyeDetector.get_single_eye_gaze_ratio crop_empty l r = 1)
    ∧ (crop_empty = false → r = 0 →
        EyeDetector.get_single_eye_gaze_ratio crop_empty l r = 2)
    ∧ (crop_empty = false → r ≠ 0 → l = 0 →
        EyeDetector.get_single_eye_gaze_ratio crop_empty l r = 1/2)
    ∧ (crop_empty = false → r ≠ 0 → l ≠ 0 →
        EyeDetector.get_single_eye_gaze_ratio crop_empty l r = (l : ℚ) / r)
    ∧ 0 ≤ EyeDetector.get_single_eye_gaze_ratio crop_empty l r
    ∧ 0 ≤ EyeTracker.get_gaze_ratio crop_empty l r
    ∧ (crop_empty = false → r ≠ 0 → l = 0 →
        EyeTracker.get_gaze_ratio crop_empty l r = 0) := by
  unfold EyeDetector.get_single_eye_gaze_ratio EyeTracker.get_gaze_ratio
  refine ⟨fun h => by simp [h], fun h hr => by simp [h, hr], fun h hr hl => by simp_all,
    fun h hr hl => by simp_all, ?_, ?_, fun h hr hl => by simp_all⟩ <;>
    split_ifs <;> norm_num <;> positivity

/-- C4 witness: concrete evaluations through the amended theorem. -/
theorem claim4_witness :
    EyeDetector.get_single_eye_gaze_ratio true 3 7 = 1
    ∧ EyeDetector.get_single_eye_gaze_ratio false 3 0 = 2
    ∧ EyeDetector.get_single_eye_gaze_ratio false 0 5 = 1/2
    ∧ EyeDetector.get_single_eye_gaze_ratio false 3 6 = (3 : ℚ) / 6 :=
  ⟨(gaze_ratio_edge_cases true 3 7).1 rfl,
   (gaze_ratio_edge_cases false 3 0).2.1 rfl rfl,
   (gaze_ratio_edge_cases false 0 5).2.2.1 rfl (by norm_num) rfl,
   (gaze_ratio_edge_cases false 3 6).2.2.2.1 rfl (by norm_num) (by norm_num)⟩

/-! Section: Calibration-profile loaders (C7) -/

/-- The raw string dict returned by `FileManager.load_calibration_data`. -/
structure CalibrationStrings where
  lu : String
  ru : String
  ld : String
  rd : String
  tb : String
  mouth : String
deriving DecidableEq, Repr

/-- Embeds `FileManager.get_default_calibration` (`utils/utils.py` lines 118-127). -/
def FileManager.get_default_calibration : CalibrationStrings :=
  { lu := "0.8", ru := "1.2", ld := "0.8", rd := "1.2", tb := "1.0", mouth := "0.5" }

/-- Embeds `FileManager.load_calibration_data` (`utils/utils.py` lines 88-116):
`content` is `none` when the file does not exist (and likewise for any read
error swallowed by the `except` block), otherwise `values`, the
comma-separated fields of the file's stripped first line
(`line.strip().split(',')`). -/
def FileManager.load_calibration_data : Option (List String) → CalibrationStrings
  | none => FileManager.get_default_calibration
  | some values =>
      if 6 ≤ values.length then
        { lu := values.getD 0 "", ru := values.getD 1 "", ld := values.getD 2 "",
          rd := values.getD 3 "", tb := values.getD 4 "", mouth := values.getD 5 "" }
      else FileManager.get_default_calibration

/-- Embeds `CalibrationData.load_from_file` (`face_tracker/calibration.py` lines 26-39).
`content` is `none` for an absent file, otherwise the fields `params` of the
stripped first line; `pyFloat` stands for Python `float` string parsing
(`none` = `ValueError`).  A `none` result models a raised exception:
`FileNotFoundError` when the file is absent, `IndexError` when the line has
fewer than six comma-separated fields, `ValueError` when a field fails to
parse — this loader substitutes no default. -/
def CalibrationData.load_from_file (pyFloat : String → Option ℚ) :
    Option (List String) → Option CalibrationData
  | none => none
  | some params =>
      if 6 ≤ params.length then
        match pyFloat (params.getD 0 ""), pyFloat (params.getD 1 ""),
              pyFloat (params.getD 2 ""), pyFloat (params.getD 3 ""),
              pyFloat (params.getD 4 ""), pyFloat (params.getD 5 "") with
        | some lu, some ru, some ld, some rd, some tbv, some mo =>
            some { lu_side := lu, ru_side := ru, ld_side := ld, rd_side := rd,
                   tb := tbv, mouth := mo }
        | _, _, _, _, _, _ => none
      else none

/-- Embeds the runtime consumption of the loaded field strings (`main.py`
lines 48-49): `blink_threshold = float(calib_data['mouth']) * 0.875`.
`pyFloat` stands for Python `float` string parsing; on a non-numeric field it
raises `ValueError` (modelled `none`) — there is no fallback to the default
profile at this point. -/
def EyeTrackingApp.blink_threshold (pyFloat : String → Option ℚ)
    (calib : CalibrationStrings) : Option ℚ :=
  (pyFloat calib.mouth).map (fun m => m * (7/8))

/-- C7 counterexample, two failures of the claim.  First, with the calibration
file absent, the `face_tracker` loader `CalibrationData.load_from_file` raises
(`FileNotFoundError`, modelled as `none`) instead of returning the documented
default profile, and `main_tracker` catches it and exits rather than
proceeding.  Second, on the malformed line `a,b,c,d,e,f` — six fields, none
of them numeric, so fewer than six *numeric* fields — `FileManager.load_calibration_data`
returns the raw strings, not the documented default profile. -/
theorem claim7_counterexample :
    CalibrationData.load_from_file (fun _ => none) none = none
    ∧ (none : Option CalibrationData) ≠ some default_calibration
    ∧ FileManager.load_calibration_data (some ["a", "b", "c", "d", "e", "f"])
        ≠ FileManager.get_default_calibration := by
  exact ⟨rfl, by simp, by decide⟩

/-- C7 (amended): `FileManager.load_calibration_data` — the loader used by the
`main.py` runtime — returns exactly the documented default profile
`lu=0.8, ru=1.2, ld=0.8, rd=1.2, tb=1.0, mouth=0.5` when the file is absent
or its line has fewer than six comma-separated fields, and the runtime
proceeds with it.  But it does not check that the fields are numeric: a line
with six or more fields is returned verbatim, and if the `mouth` field fails
to parse the runtime then raises at `float(...)` while building the blink
threshold instead of substituting the default.  The parallel `face_tracker`
loader `CalibrationData.load_from_file` has no fallback at all: an absent
file propagates an error and `main_tracker` exits. -/
theorem load_calibration_default (values : List String)
    (hshort : values.length < 6) :
    FileManager.load_calibration_data none = FileManager.get_default_calibration
    ∧ FileManager.load_calibration_data (some values) = FileManager.get_default_calibration
    ∧ (∀ fields : List String, 6 ≤ fields.length →
        FileManager.load_calibration_data (some fields)
          = { lu := fields.getD 0 "", ru := fields.getD 1 "", ld := fields.getD 2 "",
              rd := fields.getD 3 "", tb := fields.getD 4 "", mouth := fields.getD 5 "" })
    ∧ (∀ (pyFloat : String → Option ℚ) (calib : CalibrationStrings),
        pyFloat calib.mouth = none →
        EyeTrackingApp.blink_threshold pyFloat calib = none)
    ∧ ∀ pyFloat : String → Option ℚ,
        CalibrationData.load_from_file pyFloat none = none := by
  refine ⟨rfl, ?_, ?_, ?_, fun _ => rfl⟩
  · simp only [FileManager.load_calibration_data]
    rw [if_neg (by omega)]
  · intro fields hlong
    simp only [FileManager.load_calibration_data]
    rw [if_pos hlong]
  · intro pyFloat calib hnone
    simp [EyeTrackingApp.blink_threshold, hnone]

/-- C7 witness: a one-field line yields the default profile; a six-field
non-numeric line is returned verbatim and the blink-threshold computation
fails on it. -/
theorem claim7_witness :
    FileManager.load_calibration_data (some ["bad"]) = FileManager.get_default_calibration
    ∧ FileManager.load_calibration_data (some ["a", "b", "c", "d", "e", "f"])
        = { lu := "a", ru := "b", ld := "c", rd := "d", tb := "e", mouth := "f" }
    ∧ EyeTrackingApp.blink_threshold (fun _ => none)
        { lu := "a", ru := "b", ld := "c", rd := "d", tb := "e", mouth := "f" } = none :=
  ⟨(load_calibration_default ["bad"] (by decide)).2.1,
   by
    rw [(load_calibration_default ["bad"] (by decide)).2.2.1
      ["a", "b", "c", "d", "e", "f"] (by decide)]
    rfl,
   (load_calibration_default ["bad"] (by decide)).2.2.2.1 (fun _ => none)
      { lu := "a", ru := "b", ld := "c", rd := "d", tb := "e", mouth := "f" } rfl⟩

/-! Section: Continuous angle adjustment (C6) -/

/-- One frame of `EyeTrackingApp.update_angle_positions` (`main.py` lines
155-165) for the currently selected channel: `inc` / `dec` are the
`angle_change_flags`, `velocity` the channel's `angle_velocities` entry and
`position` its `angle_positions` entry; the base step is `0.05` and the
velocity term `velocity / 300`. -/
def EyeTrackingApp.update_angle_position (inc dec : Bool)
    (velocity position : ℚ) : ℚ :=
  if inc then
    if position < 90 then position + (1/20 + velocity/300) else position
  else if dec then
    if -90 < position then position - (1/20 + velocity/300) else position
  else position

/-- The angle after `n` frames of a continuous "increase" command on a channel
with rate `velocity`, starting from `0`. -/
def EyeTrackingApp.angle_after (velocity : ℚ) : ℕ → ℚ
  | 0 => 0
  | n + 1 =>
      EyeTrackingApp.update_angle_position true false velocity
        (EyeTrackingApp.angle_after velocity n)

/-- The angle after `n` frames of a continuous "decrease" command, starting
from `0`. -/
def EyeTrackingApp.angle_after_dec (velocity : ℚ) : ℕ → ℚ
  | 0 => 0
  | n + 1 =>
      EyeTrackingApp.update_angle_position false true velocity
        (EyeTrackingApp.angle_after_dec velocity n)

/-- Embeds the `velocity_inc` branch of `EyeTrackingApp.process_gui_action`
(`main.py` lines 264-267) for the selected channel. -/
def EyeTrackingApp.velocity_inc (v : ℤ) : ℤ := if v < 100 then v + 10 else v

/-- Embeds the `velocity_dec` branch of `EyeTrackingApp.process_gui_action`
(`main.py` lines 269-272) for the selected channel. -/
def EyeTrackingApp.velocity_dec (v : ℤ) : ℤ := if 0 < v then v - 10 else v

lemma angle_after_zero (velocity : ℚ) : EyeTrackingApp.angle_after velocity 0 = 0 := rfl

lemma angle_after_succ (velocity : ℚ) (n : ℕ) :
    EyeTrackingApp.angle_after velocity (n + 1)
      = if EyeTrackingApp.angle_after velocity n < 90 then
          EyeTrackingApp.angle_after velocity n + (1/20 + velocity/300)
        else EyeTrackingApp.angle_after velocity n := rfl

lemma angle_after_dec_succ (velocity : ℚ) (n : ℕ) :
    EyeTrackingApp.angle_after_dec velocity (n + 1)
      = if -90 < EyeTrackingApp.angle_after_dec velocity n then
          EyeTrackingApp.angle_after_dec velocity n - (1/20 + velocity/300)
        else EyeTrackingApp.angle_after_dec velocity n := rfl

/-- The decrease direction mirrors the increase direction exactly. -/
lemma angle_after_dec_neg (velocity : ℚ) (n : ℕ) :
    EyeTrackingApp.angle_after_dec velocity n = - EyeTrackingApp.angle_after velocity n := by
  induction n with
  | zero => simp [EyeTrackingApp.angle_after_dec, angle_after_zero]
  | succ k ih =>
      rw [angle_after_dec_succ, angle_after_succ, ih]
      by_cases hx : EyeTrackingApp.angle_after velocity k < 90
      · rw [if_pos (by linarith), if_pos hx]
        ring
      · rw [if_neg (by intro hcon; exact hx (by linarith)), if_neg hx]

/-- The accumulator steps by `s = 0.05 + velocity/300` until the first value
`≥ 90` is reached, which happens after `⌈90 / s⌉` frames; it is never clamped. -/
lemma angle_after_eq (velocity : ℚ) (hv : 0 ≤ velocity) (n : ℕ) :
    EyeTrackingApp.angle_after velocity n
      = (1/20 + velocity/300)
          * ((min n ⌈(90 : ℚ) / (1/20 + velocity/300)⌉₊ : ℕ) : ℚ) := by
  set s : ℚ := 1/20 + velocity/300 with hs_def
  have hs : 0 < s := by positivity
  set K : ℕ := ⌈(90 : ℚ) / s⌉₊ with hK_def
  have h_le : ∀ m : ℕ, m ≤ K → EyeTrackingApp.angle_after velocity m = s * m := by
    intro m
    induction m with
    | zero => intro _; simp [angle_after_zero]
    | succ k ih =>
        intro hk
        have hkK : k < K := Nat.lt_of_succ_le hk
        have hlt : ((k : ℚ)) < 90 / s := Nat.lt_ceil.mp hkK
        have hlt' : s * k < 90 := by
          rw [mul_comm]
          exact (lt_div_iff₀ hs).mp hlt
        have hk' : EyeTrackingApp.angle_after velocity k = s * k :=
          ih (Nat.le_of_lt hkK)
        rw [angle_after_succ, hk', if_pos hlt']
        push_cast
        ring
  have hK_ge : (90 : ℚ) ≤ s * K := by
    have h := Nat.le_ceil ((90 : ℚ) / s)
    rw [mul_comm]
    exact (div_le_iff₀ hs).mp h
  have h_ge : ∀ m : ℕ, K ≤ m → EyeTrackingApp.angle_after velocity m = s * K := by
    intro m
    induction m with
    | zero =>
        intro hm
        have h0 : K = 0 := Nat.le_zero.mp hm
        simp [angle_after_zero, h0]
    | succ k ih =>
        intro hm
        rcases Nat.lt_or_ge k K with hlt | hge
        · have hKeq : K = k + 1 := le_antisymm hm (Nat.succ_le_of_lt hlt)
          rw [hKeq]
          exact h_le (k + 1) (le_of_eq hKeq.symm)
        · have hk' := ih hge
          rw [angle_after_succ, hk', if_neg (not_lt.mpr hK_ge)]
  rcases le_or_lt n K with h | h
  · rw [min_eq_left h]
    exact h_le n h
  · rw [min_eq_right (le_of_lt h)]
    exact h_ge n (le_of_lt h)

/-- C6 counterexample: with rate `R = 100` the per-frame step is `23/60`, and
after `N = 235` frames the accumulator holds `235 * 23/60 = 1081/12 > 90`:
the guard `position < 90` is checked before the unclamped addition, so the
value overshoots `90` and differs from `min 90 (N * (0.05 + R/300)) = 90`. -/
theorem claim6_counterexample :
    EyeTrackingApp.angle_after 100 235 = 1081/12
    ∧ (90 : ℚ) < EyeTrackingApp.angle_after 100 235
    ∧ EyeTrackingApp.angle_after 100 235 ≠ min 90 (235 * (1/20 + 100/300)) := by
  have hK : ⌈(90 : ℚ) / (1/20 + 100/300)⌉₊ = 235 := by
    rw [Nat.ceil_eq_iff (by norm_num)]
    norm_num
  have h : EyeTrackingApp.angle_after 100 235 = 1081/12 := by
    rw [angle_after_eq 100 (by norm_num) 235, hK]
    norm_num
  refine ⟨h, by rw [h]; norm_num, by rw [h]; norm_num⟩

/-- C6 (amended): for a nonnegative rate `R`, `N` frames of continuous
"increase" from `0` yield `s * min N ⌈90 / s⌉` with `s = 0.05 + R/300`
(stepping stops at the first value `≥ 90`, which the guard reaches after
`⌈90 / s⌉` frames); the accumulator stays nonnegative and below `90 + s` —
one step of overshoot past `90` is possible, it is not clamped to `90` — and
the "decrease" direction is the exact mirror, so the accumulator stays inside
`(-(90 + s), 90 + s)` but not inside `[-90, 90]`.  The velocity accumulator,
by contrast, really does stay in `[0, 100]` with no overshoot: it moves in
steps of `10` under the strict guards `< 100` / `> 0`. -/
theorem angle_after_formula (velocity : ℚ) (hv : 0 ≤ velocity) (n : ℕ) :
    EyeTrackingApp.angle_after velocity n
        = (1/20 + velocity/300)
            * ((min n ⌈(90 : ℚ) / (1/20 + velocity/300)⌉₊ : ℕ) : ℚ)
    ∧ 0 ≤ EyeTrackingApp.angle_after velocity n
    ∧ EyeTrackingApp.angle_after velocity n < 90 + (1/20 + velocity/300)
    ∧ EyeTrackingApp.angle_after_dec velocity n = - EyeTrackingApp.angle_after velocity n
    ∧ (∀ v : ℤ, 10 ∣ v → 0 ≤ v → v ≤ 100 →
        0 ≤ EyeTrackingApp.velocity_inc v ∧ EyeTrackingApp.velocity_inc v ≤ 100
          ∧ 0 ≤ EyeTrackingApp.velocity_dec v ∧ EyeTrackingApp.velocity_dec v ≤ 100) := by
  have hmain := angle_after_eq velocity hv n
  set s : ℚ := 1/20 + velocity/300 with hs_def
  have hs : 0 < s := by positivity
  set K : ℕ := ⌈(90 : ℚ) / s⌉₊ with hK_def
  refine ⟨hmain, by rw [hmain]; positivity, ?_, angle_after_dec_neg velocity n, ?_⟩
  · rw [hmain]
    have h1 : ((min n K : ℕ) : ℚ) ≤ (K : ℚ) := by
      exact_mod_cast min_le_right n K
    have h2 : s * ((min n K : ℕ) : ℚ) ≤ s * K :=
      mul_le_mul_of_nonneg_left h1 (le_of_lt hs)
    have h3 : (K : ℚ) < 90 / s + 1 :=
      Nat.ceil_lt_add_one (by positivity)
    have h4 : s * (K : ℚ) < 90 + s := by
      calc s * (K : ℚ) < s * (90 / s + 1) := mul_lt_mul_of_pos_left h3 hs
        _ = 90 + s := by field_simp
    exact lt_of_le_of_lt h2 h4
  · intro v hd h0 h1
    unfold EyeTrackingApp.velocity_inc EyeTrackingApp.velocity_dec
    refine ⟨?_, ?_, ?_, ?_⟩ <;> split_ifs <;> omega

/-- C6 witness: rate `10`, two frames — the step is `1/12`, so the value is
`1/6` (and `-1/6` for decrease); the velocity guards hold at `100`. -/
theorem claim6_witness :
    EyeTrackingApp.angle_after 10 2
        = (1/20 + (10 : ℚ)/300)
            * ((min 2 ⌈(90 : ℚ) / (1/20 + 10/300)⌉₊ : ℕ) : ℚ)
    ∧ EyeTrackingApp.angle_after 10 2 = 1/6
    ∧ EyeTrackingApp.angle_after_dec 10 2 = - EyeTrackingApp.angle_after 10 2
    ∧ EyeTrackingApp.velocity_inc 100 ≤ 100
    ∧ 0 ≤ EyeTrackingApp.velocity_dec 0 :=
  ⟨(angle_after_formula 10 (by norm_num) 2).1,
   by
    rw [show (2 : ℕ) = 0 + 1 + 1 from rfl, angle_after_succ, angle_after_succ,
      angle_after_zero]
    norm_num,
   (angle_after_formula 10 (by norm_num) 2).2.2.2.1,
   ((angle_after_formula 10 (by norm_num) 2).2.2.2.2 100 (by decide) (by decide)
      (by decide)).2.1,
   ((angle_after_formula 10 (by norm_num) 2).2.2.2.2 0 (by decide) (by decide)
      (by decide)).2.2.1⟩

/-! Section: Blink / double-blink state machine (C3) -/

/-- The blink bookkeeping of `EyeTrackingApp` (`main.py` `reset_state` /
`handle_blinking`): the previous frame's position flags, the dwell flags held
during a blink, the dwell stored at the previous blink, and the int flags
`anti_millis_blink` / `dbl_blink_gui`. -/
structure BlinkState where
  prev_flags : PositionFlags
  blink_flags : PositionFlags
  prev_blink_flags : PositionFlags
  anti_millis_blink : ℕ
  dbl_blink_gui : ℕ
deriving DecidableEq, Repr

/-- All-false flags, the `{'center': 0, ...}` dicts of `reset_state`. -/
def zero_flags : PositionFlags :=
  { center := false, right := false, left := false, top := false, bot := false }

/-- The blink fields set by `EyeTrackingApp.reset_state` (`main.py` lines 54-66). -/
def EyeTrackingApp.reset_state : BlinkState :=
  { prev_flags := zero_flags, blink_flags := zero_flags,
    prev_blink_flags := zero_flags, anti_millis_blink := 0, dbl_blink_gui := 0 }

/-- Embeds `EyeTrackingApp.handle_blinking` (`main.py` lines 130-153): a frame is a
blink frame when `blink_ratio > 10000 * blink_threshold`; on a blink frame the
dwell is the pre-blink `prev_flags`, `dbl_blink_gui` is set iff that dwell
equals `prev_blink_flags` and the previous frame was not a blink frame
(`anti_millis_blink == 0`); on an open-eye frame `anti_millis_blink` is
cleared and `prev_flags` takes the current flags. -/
def EyeTrackingApp.handle_blinking (blink_threshold : ℚ) (s : BlinkState)
    (blink_ratio : ℚ) (current_flags : PositionFlags) : BlinkState :=
  if 10000 * blink_threshold < blink_ratio then
    let blink_flags := s.prev_flags
    let dbl : ℕ := if s.prev_blink_flags = blink_flags ∧ s.anti_millis_blink = 0 then 1 else 0
    { s with
        blink_flags := blink_flags
        dbl_blink_gui := dbl
        prev_blink_flags := blink_flags
        anti_millis_blink := 1 }
  else
    { s with
        anti_millis_blink := 0
        prev_flags := current_flags }

/-- A frame sequence fed to `handle_blinking`: per frame the blink ratio and
the classified position flags. -/
def EyeTrackingApp.run_blinks (blink_threshold : ℚ) (s : BlinkState)
    (frames : List (ℚ × PositionFlags)) : BlinkState :=
  frames.foldl (fun t f => EyeTrackingApp.handle_blinking blink_threshold t f.1 f.2) s

/-- Center-bottom flags, used as a concrete dwell position. -/
def cb_flags : PositionFlags :=
  { center := true, right := false, left := false, top := false, bot := true }

/-- C3 counterexample: with threshold `1` (blink when ratio `> 10000`), the
four-frame trace open(center-bot), blink, open(center-bot), blink contains an
intervening open-eye frame between the two blinks, yet the second blink sets
`dbl_blink_gui = 1` — the claim's "an intervening open-eye frame with any
position forces `double_blink = false` on the next blink" is false (indeed
only blink onsets, which require a preceding open-eye frame, can set it). -/
theorem claim3_counterexample :
    (EyeTrackingApp.run_blinks 1 EyeTrackingApp.reset_state
        [(0, cb_flags), (20000, cb_flags), (0, cb_flags), (20000, cb_flags)]).dbl_blink_gui
      = 1 := by
  norm_num [EyeTrackingApp.run_blinks, List.foldl, EyeTrackingApp.handle_blinking,
    EyeTrackingApp.reset_state, cb_flags, zero_flags]

/-- C3 (amended): on a blink frame, `double_blink` is set iff the frame is a
blink *onset* — the previous frame was an open-eye frame — and the dwell
captured now (the position held on that open frame) equals the dwell stored
at the previous blink; a blink frame directly following another blink frame
never sets it; a blink frame stores the captured dwell in `prev_blink_flags`,
and an open-eye frame leaves `prev_blink_flags` untouched while recording its
position, so intervening open-eye frames do not force `double_blink` false —
only a changed dwell position does. -/
theorem handle_blinking_double (thr ro rb1 rb2 : ℚ) (s : BlinkState)
    (A B C : PositionFlags)
    (ho : ¬ 10000 * thr < ro) (hb1 : 10000 * thr < rb1) (hb2 : 10000 * thr < rb2) :
    ((EyeTrackingApp.handle_blinking thr
        (EyeTrackingApp.handle_blinking thr s ro A) rb1 B).dbl_blink_gui
      = if s.prev_blink_flags = A then 1 else 0)
    ∧ (EyeTrackingApp.handle_blinking thr
        (EyeTrackingApp.handle_blinking thr s rb1 B) rb2 C).dbl_blink_gui = 0
    ∧ (EyeTrackingApp.handle_blinking thr s rb1 B).prev_blink_flags = s.prev_flags
    ∧ (EyeTrackingApp.handle_blinking thr s rb1 B).blink_flags = s.prev_flags
    ∧ (EyeTrackingApp.handle_blinking thr s ro A).prev_blink_flags = s.prev_blink_flags
    ∧ (EyeTrackingApp.handle_blinking thr s ro A).prev_flags = A := by
  simp [EyeTrackingApp.handle_blinking, ho, hb1, hb2]

/-- C3 witness: starting from a state whose previous-blink dwell is
center-bottom, an open-eye frame at center-bottom followed by a blink sets
`dbl_blink_gui = 1`. -/
theorem claim3_witness :
    (EyeTrackingApp.handle_blinking 1
        (EyeTrackingApp.handle_blinking 1
          { prev_flags := cb_flags, blink_flags := zero_flags,
            prev_blink_flags := cb_flags, anti_millis_blink := 0, dbl_blink_gui := 0 }
          0 cb_flags) 20000 cb_flags).dbl_blink_gui = 1 := by
  have h := (handle_blinking_double 1 0 20000 20000
      { prev_flags := cb_flags, blink_flags := zero_flags,
        prev_blink_flags := cb_flags, anti_millis_blink := 0, dbl_blink_gui := 0 }
      cb_flags cb_flags cb_flags (by norm_num) (by norm_num) (by norm_num)).1
  rw [h, if_pos rfl]

/-! Section: Degenerate vertical-ratio sentinels (C9) -/

/-- A 2D integer landmark point. -/
structure Pt where
  x : ℤ
  y : ℤ
deriving DecidableEq, Repr

/-- Embeds `midpoint` (`eye_detection.py` lines 50-53 / `utils/geometry_utils.py`):
`int((p1.x + p2.x) / 2)` — Python `int(...)` truncates toward zero, which is
`Int.tdiv` on `ℤ` (not `/`, which floors and differs on negative odd sums). -/
def midpoint (p1 p2 : Pt) : Pt :=
  { x := Int.tdiv (p1.x + p2.x) 2, y := Int.tdiv (p1.y + p2.y) 2 }

/-- Embeds `math.hypot` on integer coordinate differences. -/
noncomputable def hypot (dx dy : ℤ) : ℝ :=
  Real.sqrt ((dx : ℝ)^2 + (dy : ℝ)^2)

/-- The six landmark points of one eye, `landmarks.part(eye_points[i])`
for `i = 0..5`. -/
structure EyePoints where
  p0 : Pt
  p1 : Pt
  p2 : Pt
  p3 : Pt
  p4 : Pt
  p5 : Pt
deriving DecidableEq, Repr

/-- Result of `EyeDetector.get_eye_blink_ratio`. -/
structure BlinkRatio where
  ratio : ℝ
  tb_ratio : ℝ

/-- The lower vertical denominator shared by all three ratio computations:
the distance from the eye center (midpoint of `p0`,`p3`) to the lower-eyelid
midpoint (midpoint of `p5`,`p4`). -/
noncomputable def bot_ver_length (e : EyePoints) : ℝ :=
  hypot ((midpoint e.p0 e.p3).x - (midpoint e.p5 e.p4).x)
        ((midpoint e.p0 e.p3).y - (midpoint e.p5 e.p4).y)

open Classical in
/-- Embeds `EyeDetector.get_eye_blink_ratio` (`eye_detection.py` lines 55-73):
`blink_ratio = hor/ver if ver != 0 else 0`;
`tb_ratio = up/bot if bot != 0 else 1.5`. -/
noncomputable def EyeDetector.get_eye_blink_ratio (e : EyePoints) : BlinkRatio :=
  let left_point := e.p0
  let right_point := e.p3
  let center_top := midpoint e.p1 e.p2
  let center_bottom := midpoint e.p5 e.p4
  let center := midpoint e.p0 e.p3
  let hor_line_length := hypot (left_point.x - right_point.x) (left_point.y - right_point.y)
  let ver_line_length := hypot (center_top.x - center_bottom.x) (center_top.y - center_bottom.y)
  let up_ver_line_length := hypot (center_top.x - center.x) (center_top.y - center.y)
  let bot_ver_line_length := hypot (center.x - center_bottom.x) (center.y - center_bottom.y)
  { ratio := if ver_line_length ≠ 0 then hor_line_length / ver_line_length else 0,
    tb_ratio := if bot_ver_line_length ≠ 0 then up_ver_line_length / bot_ver_line_length
      else 3/2 }

open Classical in
/-- Embeds `EyeTracker.get_tb_ratio` (`face_tracker/eye_tracker.py` lines 13-24):
returns `1.5` when `bot_length == 0`. -/
noncomputable def EyeTracker.get_tb_ratio (e : EyePoints) : ℝ :=
  let center_top := midpoint e.p1 e.p2
  let center_bottom := midpoint e.p5 e.p4
  let center := midpoint e.p0 e.p3
  let up_length := hypot (center_top.x - center.x) (center_top.y - center.y)
  let bot_length := hypot (center.x - center_bottom.x) (center.y - center_bottom.y)
  if bot_length = 0 then 3/2 else up_length / bot_length

open Classical in
/-- Embeds `EyeTracker.get_blinking_ratio` (`face_tracker/eye_tracker.py` lines 26-42):
returns `(blink_ratio, tb_ratio)` with `tb_ratio = 5 if bot_length == 0`. -/
noncomputable def EyeTracker.get_blinking_ratio (e : EyePoints) : ℝ × ℝ :=
  let left_point := e.p0
  let right_point := e.p3
  let center_top := midpoint e.p1 e.p2
  let center_bottom := midpoint e.p5 e.p4
  let center := midpoint e.p0 e.p3
  let hor_length := hypot (left_point.x - right_point.x) (left_point.y - right_point.y)
  let ver_length := hypot (center_top.x - center_bottom.x) (center_top.y - center_bottom.y)
  let up_length := hypot (center_top.x - center.x) (center_top.y - center.y)
  let bot_length := hypot (center.x - center_bottom.x) (center.y - center_bottom.y)
  (if ver_length ≠ 0 then hor_length / ver_length else 0,
   if bot_length = 0 then 5 else up_length / bot_length)

/-- A landmark configuration whose eye center `(2,0)` coincides with the
lower-eyelid midpoint, so the lower vertical denominator is `0`. -/
def degenerate_eye : EyePoints :=
  { p0 := ⟨0, 0⟩, p1 := ⟨0, 4⟩, p2 := ⟨4, 4⟩, p3 := ⟨4, 0⟩, p4 := ⟨2, 0⟩, p5 := ⟨2, 0⟩ }

lemma degenerate_midpoints :
    midpoint ⟨0, 0⟩ ⟨4, 0⟩ = (⟨2, 0⟩ : Pt) ∧ midpoint ⟨2, 0⟩ ⟨2, 0⟩ = (⟨2, 0⟩ : Pt) := by
  constructor <;> · simp only [midpoint] ; decide

lemma degenerate_eye_bot_zero : bot_ver_length degenerate_eye = 0 := by
  show hypot ((midpoint ⟨0, 0⟩ ⟨4, 0⟩).x - (midpoint ⟨2, 0⟩ ⟨2, 0⟩).x)
      ((midpoint ⟨0, 0⟩ ⟨4, 0⟩).y - (midpoint ⟨2, 0⟩ ⟨2, 0⟩).y) = 0
  rw [degenerate_midpoints.1, degenerate_midpoints.2]
  norm_num [hypot]

/-- C9 counterexample: at a configuration with zero lower vertical
denominator, `EyeTracker.get_blinking_ratio` returns the sentinel `5` for its
vertical ratio — not the canonical `1.5` the claim requires of *every*
vertical-ratio computation. -/
theorem claim9_counterexample :
    (EyeTracker.get_blinking_ratio degenerate_eye).2 = 5 ∧ (5 : ℝ) ≠ 3/2 := by
  constructor
  · have h0 : hypot ((midpoint ⟨0, 0⟩ ⟨4, 0⟩).x - (midpoint ⟨2, 0⟩ ⟨2, 0⟩).x)
        ((midpoint ⟨0, 0⟩ ⟨4, 0⟩).y - (midpoint ⟨2, 0⟩ ⟨2, 0⟩).y) = 0 :=
      degenerate_eye_bot_zero
    show (if hypot ((midpoint ⟨0, 0⟩ ⟨4, 0⟩).x - (midpoint ⟨2, 0⟩ ⟨2, 0⟩).x)
        ((midpoint ⟨0, 0⟩ ⟨4, 0⟩).y - (midpoint ⟨2, 0⟩ ⟨2, 0⟩).y) = 0 then (5 : ℝ)
      else _) = 5
    rw [if_pos h0]
  · norm_num

/-- C9 (amended): when the lower vertical denominator is zero,
`EyeDetector.get_eye_blink_ratio` and `EyeTracker.get_tb_ratio` return the
canonical sentinel `1.5`, but `EyeTracker.get_blinking_ratio` returns `5` —
the two sentinel conventions diverge. -/
theorem tb_ratio_sentinels (e : EyePoints) (hbot : bot_ver_length e = 0) :
    (EyeDetector.get_eye_blink_ratio e).tb_ratio = 3/2
    ∧ EyeTracker.get_tb_ratio e = 3/2
    ∧ (EyeTracker.get_blinking_ratio e).2 = 5 := by
  have h : hypot ((midpoint e.p0 e.p3).x - (midpoint e.p5 e.p4).x)
      ((midpoint e.p0 e.p3).y - (midpoint e.p5 e.p4).y) = 0 := hbot
  refine ⟨?_, ?_, ?_⟩
  · show (if hypot ((midpoint e.p0 e.p3).x - (midpoint e.p5 e.p4).x)
        ((midpoint e.p0 e.p3).y - (midpoint e.p5 e.p4).y) ≠ 0 then _ else (3/2 : ℝ)) = 3/2
    rw [if_neg (by simp [h])]
  · show (if hypot ((midpoint e.p0 e.p3).x - (midpoint e.p5 e.p4).x)
        ((midpoint e.p0 e.p3).y - (midpoint e.p5 e.p4).y) = 0 then (3/2 : ℝ) else _) = 3/2
    rw [if_pos h]
  · show (if hypot ((midpoint e.p0 e.p3).x - (midpoint e.p5 e.p4).x)
        ((midpoint e.p0 e.p3).y - (midpoint e.p5 e.p4).y) = 0 then (5 : ℝ) else _) = 5
    rw [if_pos h]

/-- C9 witness: the degenerate configuration evaluated through the theorem. -/
theorem claim9_witness :
    (EyeDetector.get_eye_blink_ratio degenerate_eye).tb_ratio = 3/2
    ∧ EyeTracker.get_tb_ratio degenerate_eye = 3/2 :=
  ⟨(tb_ratio_sentinels degenerate_eye degenerate_eye_bot_zero).1,
   (tb_ratio_sentinels degenerate_eye degenerate_eye_bot_zero).2.1⟩

/-! Section: Calibration session (C2, C8) -/

/-- The ratios measured from one detected face during calibration. -/
structure Measurement where
  side : ℚ
  top : ℚ
  mouth : ℚ
deriving DecidableEq, Repr

/-- Embeds `CalibrationManager.calibration_values` plus `sample_count`
(`calibration.py` lines 42-48). -/
structure CalibrationValues where
  side : ℚ
  top : ℚ
  mouth : ℚ
  sample_count : ℕ
deriving DecidableEq, Repr

/-- Embeds `CalibrationManager.reset_calibration_values` (`calibration.py` lines 130-133). -/
def CalibrationManager.reset_calibration_values : CalibrationValues :=
  { side := 0, top := 0, mouth := 0, sample_count := 0 }

/-- Embeds `CalibrationManager.collect_calibration_sample` (`calibration.py` lines
92-119): a frame with no detected face (`none`) returns `False` without
touching the accumulators; a detected face accumulates `mouth_ratio` during
the mouth stage, else `side_gaze_ratio` and `tb_ratio`, and increments
`sample_count`. -/
def CalibrationManager.collect_calibration_sample (is_mouth : Bool)
    (s : CalibrationValues) (frame : Option Measurement) : CalibrationValues :=
  match frame with
  | none => s
  | some m =>
      if is_mouth then
        { s with
            mouth := s.mouth + m.mouth
            sample_count := s.sample_count + 1 }
      else
        { s with
            side := s.side + m.side
            top := s.top + m.top
            sample_count := s.sample_count + 1 }

/-- One capture stage: the per-frame samples of the dwell window folded into
the freshly reset accumulators. -/
def CalibrationManager.run_stage (is_mouth : Bool)
    (frames : List (Option Measurement)) : CalibrationValues :=
  frames.foldl (CalibrationManager.collect_calibration_sample is_mouth)
    CalibrationManager.reset_calibration_values

/-- Embeds `CalibrationManager.get_average_values` (`calibration.py` lines 121-128):
Python divides by `self.sample_count` unguarded, so a zero count raises
`ZeroDivisionError`, modelled as `none`. -/
def CalibrationManager.get_average_values (is_mouth : Bool)
    (s : CalibrationValues) : Option (ℚ × ℚ) :=
  if s.sample_count = 0 then none
  else if is_mouth then some (0, s.mouth / (s.sample_count : ℚ))
  else some (s.side / (s.sample_count : ℚ), s.top / (s.sample_count : ℚ))

/-- The success path of `CalibrationManager.run_calibration` (`calibration.py`
lines 174-269): the five capture stages (2 = lu, 4 = ru, 6 = rd, 8 = ld,
10 = mouth) each fold their dwell-window frames and take the stage average
when the dwell expires; at the end `tb` is the arithmetic mean of the four
corner top averages.  Any `ZeroDivisionError` is caught by the surrounding
`except` and the whole calibration returns failure (`none`). -/
def CalibrationManager.run_calibration
    (lu ru rd ld mo : List (Option Measurement)) : Option CalibrationData :=
  match CalibrationManager.get_average_values false (CalibrationManager.run_stage false lu),
        CalibrationManager.get_average_values false (CalibrationManager.run_stage false ru),
        CalibrationManager.get_average_values false (CalibrationManager.run_stage false rd),
        CalibrationManager.get_average_values false (CalibrationManager.run_stage false ld),
        CalibrationManager.get_average_values true (CalibrationManager.run_stage true mo) with
  | some (lu_side, lu_top), some (ru_side, ru_top), some (rd_side, rd_top),
    some (ld_side, ld_top), some (_, mouth_avg) =>
      let tb_average := (lu_top + ru_top + rd_top + ld_top) / 4
      some { lu_side := lu_side, ru_side := ru_side, ld_side := ld_side,
             rd_side := rd_side, tb := tb_average, mouth := mouth_avg }
  | _, _, _, _, _ => none

/-- Arithmetic mean of a list of rationals. -/
def mean (l : List ℚ) : ℚ := l.sum / (l.length : ℚ)

/-- The side ratios of the detected frames of a capture stage. -/
def corner_sides (frames : List (Option Measurement)) : List ℚ :=
  frames.reduceOption.map Measurement.side

/-- The vertical (tb) ratios of the detected frames of a capture stage. -/
def corner_tops (frames : List (Option Measurement)) : List ℚ :=
  frames.reduceOption.map Measurement.top

/-- The mouth ratios of the detected frames of the mouth stage. -/
def stage_mouths (frames : List (Option Measurement)) : List ℚ :=
  frames.reduceOption.map Measurement.mouth

lemma run_stage_corner_spec (frames : List (Option Measurement)) :
    ∀ s : CalibrationValues,
      frames.foldl (CalibrationManager.collect_calibration_sample false) s
        = { side := s.side + (frames.reduceOption.map Measurement.side).sum,
            top := s.top + (frames.reduceOption.map Measurement.top).sum,
            mouth := s.mouth,
            sample_count := s.sample_count + frames.reduceOption.length } := by
  induction frames with
  | nil => intro s; simp
  | cons f t ih =>
      intro s
      cases f with
      | none => simp [CalibrationManager.collect_calibration_sample, ih]
      | some m =>
          rw [List.foldl_cons]
          show (t.foldl (CalibrationManager.collect_calibration_sample false)
              { s with
                  side := s.side + m.side
                  top := s.top + m.top
                  sample_count := s.sample_count + 1 }) = _
          rw [ih]
          simp [List.reduceOption_cons_of_some]
          refine ⟨by ring, by ring, by omega⟩

lemma run_stage_mouth_spec (frames : List (Option Measurement)) :
    ∀ s : CalibrationValues,
      frames.foldl (CalibrationManager.collect_calibration_sample true) s
        = { side := s.side,
            top := s.top,
            mouth := s.mouth + (frames.reduceOption.map Measurement.mouth).sum,
            sample_count := s.sample_count + frames.reduceOption.length } := by
  induction frames with
  | nil => intro s; simp
  | cons f t ih =>
      intro s
      cases f with
      | none => simp [CalibrationManager.collect_calibration_sample, ih]
      | some m =>
          rw [List.foldl_cons]
          show (t.foldl (CalibrationManager.collect_calibration_sample true)
              { s with
                  mouth := s.mouth + m.mouth
                  sample_count := s.sample_count + 1 }) = _
          rw [ih]
          simp [List.reduceOption_cons_of_some]
          refine ⟨by ring, by omega⟩

lemma get_average_values_corner (frames : List (Option Measurement))
    (h : frames.reduceOption ≠ []) :
    CalibrationManager.get_average_values false
        (CalibrationManager.run_stage false frames)
      = some (mean (corner_sides frames), mean (corner_tops frames)) := by
  have hlen : frames.reduceOption.length ≠ 0 := by
    simpa [List.length_eq_zero] using h
  rw [CalibrationManager.run_stage, run_stage_corner_spec]
  simp [CalibrationManager.get_average_values, CalibrationManager.reset_calibration_values,
    hlen, mean, corner_sides, corner_tops]

lemma get_average_values_mouth (frames : List (Option Measurement))
    (h : frames.reduceOption ≠ []) :
    CalibrationManager.get_average_values true
        (CalibrationManager.run_stage true frames)
      = some (0, mean (stage_mouths frames)) := by
  have hlen : frames.reduceOption.length ≠ 0 := by
    simpa [List.length_eq_zero] using h
  rw [CalibrationManager.run_stage, run_stage_mouth_spec]
  simp [CalibrationManager.get_average_values, CalibrationManager.reset_calibration_values,
    hlen, mean, stage_mouths]

/-- The `stage_data` dict of `CalibrationSystem` (`face_tracker/calibration.py`):
keys `lu_side`, `ru_side`, `rd_side`, `ld_side`, `tb_1` … `tb_4`; an absent
key is `none`. -/
structure StageData where
  lu_side : Option ℚ
  ru_side : Option ℚ
  rd_side : Option ℚ
  ld_side : Option ℚ
  tb_1 : Option ℚ
  tb_2 : Option ℚ
  tb_3 : Option ℚ
  tb_4 : Option ℚ
deriving DecidableEq, Repr

/-- The mutable state of `CalibrationSystem` relevant to finalization
(`face_tracker/calibration.py` `reset_calibration`): running accumulators and
counter, the `stage_data` dict and `self.data.mouth`. -/
structure CalibrationSystemState where
  accumulated_side : ℚ
  accumulated_top : ℚ
  accumulated_mouth : ℚ
  count : ℕ
  stage_data : StageData
  mouth : ℚ
deriving DecidableEq, Repr

/-- Embeds `CalibrationSystem.reset_calibration` (`face_tracker/calibration.py`
lines 58-67). -/
def CalibrationSystem.reset_calibration : CalibrationSystemState :=
  { accumulated_side := 0, accumulated_top := 0, accumulated_mouth := 0, count := 0,
    stage_data := { lu_side := none, ru_side := none, rd_side := none, ld_side := none,
                    tb_1 := none, tb_2 := none, tb_3 := none, tb_4 := none },
    mouth := 0 }

/-- One detected face processed by `CalibrationSystem.process_frame`
(`face_tracker/calibration.py` lines 76-109) while stage `flag` is active:
corner stages `{2,4,6,8}` accumulate side and tb ratios and rewrite the
stage's running averages (`'{lu,ru,rd,ld}_side'` and `'tb_{flag//2}'`) in
`stage_data` after every sample; stage `10` accumulates the mouth ratio into
`self.data.mouth`; other flags accumulate nothing. -/
def CalibrationSystem.process_sample (flag : ℕ)
    (s : CalibrationSystemState) (m : Measurement) : CalibrationSystemState :=
  if flag = 2 ∨ flag = 4 ∨ flag = 6 ∨ flag = 8 then
    let accumulated_side := s.accumulated_side + m.side
    let accumulated_top := s.accumulated_top + m.top
    let count := s.count + 1
    let sd :=
      if flag = 2 then
        { s.stage_data with
            lu_side := some (accumulated_side / (count : ℚ))
            tb_1 := some (accumulated_top / (count : ℚ)) }
      else if flag = 4 then
        { s.stage_data with
            ru_side := some (accumulated_side / (count : ℚ))
            tb_2 := some (accumulated_top / (count : ℚ)) }
      else if flag = 6 then
        { s.stage_data with
            rd_side := some (accumulated_side / (count : ℚ))
            tb_3 := some (accumulated_top / (count : ℚ)) }
      else
        { s.stage_data with
            ld_side := some (accumulated_side / (count : ℚ))
            tb_4 := some (accumulated_top / (count : ℚ)) }
    { s with
        accumulated_side := accumulated_side
        accumulated_top := accumulated_top
        count := count
        stage_data := sd }
  else if flag = 10 then
    let accumulated_mouth := s.accumulated_mouth + m.mouth
    let count := s.count + 1
    { s with
        accumulated_mouth := accumulated_mouth
        count := count
        mouth := accumulated_mouth / (count : ℚ) }
  else s

/-- Embeds `CalibrationSystem._advance_stage` (`face_tracker/calibration.py` lines
146-152): the accumulators and counter are zeroed; `stage_data` and the
partially built profile persist.  (The interleaved instruction stages only
repeat this reset.) -/
def CalibrationSystem.advance_stage (s : CalibrationSystemState) : CalibrationSystemState :=
  { s with
      accumulated_side := 0
      accumulated_top := 0
      accumulated_mouth := 0
      count := 0 }

/-- The capture stages of a full `CalibrationSystem` session in order: the
detected measurements of stages 2, 4, 6, 8 and 10, with the stage advances
(and their resets) in between. -/
def CalibrationSystem.run (lu ru rd ld mo : List Measurement) : CalibrationSystemState :=
  let s2 := lu.foldl (CalibrationSystem.process_sample 2) CalibrationSystem.reset_calibration
  let s4 := ru.foldl (CalibrationSystem.process_sample 4) (CalibrationSystem.advance_stage s2)
  let s6 := rd.foldl (CalibrationSystem.process_sample 6) (CalibrationSystem.advance_stage s4)
  let s8 := ld.foldl (CalibrationSystem.process_sample 8) (CalibrationSystem.advance_stage s6)
  mo.foldl (CalibrationSystem.process_sample 10) (CalibrationSystem.advance_stage s8)

/-- Embeds `CalibrationSystem.finalize_calibration` (`face_tracker/calibration.py`
lines 158-169): missing `stage_data` keys default to `0.0`; `tb` is the mean
of the four `tb_i` entries (the list always has four entries, so the divisor
is 4); `mouth` was already written during stage 10. -/
def CalibrationSystem.finalize_calibration (s : CalibrationSystemState) : CalibrationData :=
  { lu_side := s.stage_data.lu_side.getD 0
    ru_side := s.stage_data.ru_side.getD 0
    ld_side := s.stage_data.ld_side.getD 0
    rd_side := s.stage_data.rd_side.getD 0
    tb := (s.stage_data.tb_1.getD 0 + s.stage_data.tb_2.getD 0
            + s.stage_data.tb_3.getD 0 + s.stage_data.tb_4.getD 0) / 4
    mouth := s.mouth }

lemma sys_fold_two (l : List Measurement) :
    ∀ s : CalibrationSystemState, l ≠ [] →
      l.foldl (CalibrationSystem.process_sample 2) s
        = { accumulated_side := s.accumulated_side + (l.map Measurement.side).sum,
            accumulated_top := s.accumulated_top + (l.map Measurement.top).sum,
            accumulated_mouth := s.accumulated_mouth,
            count := s.count + l.length,
            stage_data := { s.stage_data with
                lu_side := some ((s.accumulated_side + (l.map Measurement.side).sum)
                  / ((s.count + l.length : ℕ) : ℚ))
                tb_1 := some ((s.accumulated_top + (l.map Measurement.top).sum)
                  / ((s.count + l.length : ℕ) : ℚ)) },
            mouth := s.mouth } := by
  induction l with
  | nil => intro s h; exact absurd rfl h
  | cons m t ih =>
      intro s _
      rw [List.foldl_cons]
      rcases eq_or_ne t [] with ht | ht
      · subst ht
        simp [CalibrationSystem.process_sample]
      · rw [ih _ ht]
        simp [CalibrationSystem.process_sample]
        refine ⟨by ring, by ring, by omega, by congr 1 <;> ring, by congr 1 <;> ring⟩

lemma sys_fold_four (l : List Measurement) :
    ∀ s : CalibrationSystemState, l ≠ [] →
      l.foldl (CalibrationSystem.process_sample 4) s
        = { accumulated_side := s.accumulated_side + (l.map Measurement.side).sum,
            accumulated_top := s.accumulated_top + (l.map Measurement.top).sum,
            accumulated_mouth := s.accumulated_mouth,
            count := s.count + l.length,
            stage_data := { s.stage_data with
                ru_side := some ((s.accumulated_side + (l.map Measurement.side).sum)
                  / ((s.count + l.length : ℕ) : ℚ))
                tb_2 := some ((s.accumulated_top + (l.map Measurement.top).sum)
                  / ((s.count + l.length : ℕ) : ℚ)) },
            mouth := s.mouth } := by
  induction l with
  | nil => intro s h; exact absurd rfl h
  | cons m t ih =>
      intro s _
      rw [List.foldl_cons]
      rcases eq_or_ne t [] with ht | ht
      · subst ht
        simp [CalibrationSystem.process_sample]
      · rw [ih _ ht]
        simp [CalibrationSystem.process_sample]
        refine ⟨by ring, by ring, by omega, by congr 1 <;> ring, by congr 1 <;> ring⟩

lemma sys_fold_six (l : List Measurement) :
    ∀ s : CalibrationSystemState, l ≠ [] →
      l.foldl (CalibrationSystem.process_sample 6) s
        = { accumulated_side := s.accumulated_side + (l.map Measurement.side).sum,
            accumulated_top := s.accumulated_top + (l.map Measurement.top).sum,
            accumulated_mouth := s.accumulated_mouth,
            count := s.count + l.length,
            stage_data := { s.stage_data with
                rd_side := some ((s.accumulated_side + (l.map Measurement.side).sum)
                  / ((s.count + l.length : ℕ) : ℚ))
                tb_3 := some ((s.accumulated_top + (l.map Measurement.top).sum)
                  / ((s.count + l.length : ℕ) : ℚ)) },
            mouth := s.mouth } := by
  induction l with
  | nil => intro s h; exact absurd rfl h
  | cons m t ih =>
      intro s _
      rw [List.foldl_cons]
      rcases eq_or_ne t [] with ht | ht
      · subst ht
        simp [CalibrationSystem.process_sample]
      · rw [ih _ ht]
        simp [CalibrationSystem.process_sample]
        refine ⟨by ring, by ring, by omega, by congr 1 <;> ring, by congr 1 <;> ring⟩

lemma sys_fold_eight (l : List Measurement) :
    ∀ s : CalibrationSystemState, l ≠ [] →
      l.foldl (CalibrationSystem.process_sample 8) s
        = { accumulated_side := s.accumulated_side + (l.map Measurement.side).sum,
            accumulated_top := s.accumulated_top + (l.map Measurement.top).sum,
            accumulated_mouth := s.accumulated_mouth,
            count := s.count + l.length,
            stage_data := { s.stage_data with
                ld_side := some ((s.accumulated_side + (l.map Measurement.side).sum)
                  / ((s.count + l.length : ℕ) : ℚ))
                tb_4 := some ((s.accumulated_top + (l.map Measurement.top).sum)
                  / ((s.count + l.length : ℕ) : ℚ)) },
            mouth := s.mouth } := by
  induction l with
  | nil => intro s h; exact absurd rfl h
  | cons m t ih =>
      intro s _
      rw [List.foldl_cons]
      rcases eq_or_ne t [] with ht | ht
      · subst ht
        simp [CalibrationSystem.process_sample]
      · rw [ih _ ht]
        simp [CalibrationSystem.process_sample]
        refine ⟨by ring, by ring, by omega, by congr 1 <;> ring, by congr 1 <;> ring⟩

lemma sys_fold_ten (l : List Measurement) :
    ∀ s : CalibrationSystemState, l ≠ [] →
      l.foldl (CalibrationSystem.process_sample 10) s
        = { accumulated_side := s.accumulated_side,
            accumulated_top := s.accumulated_top,
            accumulated_mouth := s.accumulated_mouth + (l.map Measurement.mouth).sum,
            count := s.count + l.length,
            stage_data := s.stage_data,
            mouth := (s.accumulated_mouth + (l.map Measurement.mouth).sum)
              / ((s.count + l.length : ℕ) : ℚ) } := by
  induction l with
  | nil => intro s h; exact absurd rfl h
  | cons m t ih =>
      intro s _
      rw [List.foldl_cons]
      rcases eq_or_ne t [] with ht | ht
      · subst ht
        simp [CalibrationSystem.process_sample]
      · rw [ih _ ht]
        simp [CalibrationSystem.process_sample]
        refine ⟨by ring, by omega, by congr 1 <;> ring⟩

/-- C2: when the calibration session completes, `tb` is the arithmetic mean of
the four corner-stage vertical averages, each side threshold is its own
corner stage's running side-ratio average, and `mouth` is the mouth-stage
mean — for both calibration engines: `CalibrationManager.run_calibration`
(success path, stages given as per-frame optional detections) and
`CalibrationSystem.run`/`finalize_calibration` (stages given as detected
measurements), provided every capture stage collected at least one sample. -/
theorem calibration_finalize_means
    (lu ru rd ld mo : List (Option Measurement))
    (slu sru srd sld smo : List Measurement)
    (hlu : lu.reduceOption ≠ []) (hru : ru.reduceOption ≠ [])
    (hrd : rd.reduceOption ≠ []) (hld : ld.reduceOption ≠ [])
    (hmo : mo.reduceOption ≠ [])
    (hslu : slu ≠ []) (hsru : sru ≠ []) (hsrd : srd ≠ [])
    (hsld : sld ≠ []) (hsmo : smo ≠ []) :
    CalibrationManager.run_calibration lu ru rd ld mo
      = some { lu_side := mean (corner_sides lu), ru_side := mean (corner_sides ru),
               ld_side := mean (corner_sides ld), rd_side := mean (corner_sides rd),
               tb := (mean (corner_tops lu) + mean (corner_tops ru)
                      + mean (corner_tops rd) + mean (corner_tops ld)) / 4,
               mouth := mean (stage_mouths mo) }
    ∧ CalibrationSystem.finalize_calibration (CalibrationSystem.run slu sru srd sld smo)
      = { lu_side := mean (slu.map Measurement.side),
          ru_side := mean (sru.map Measurement.side),
          ld_side := mean (sld.map Measurement.side),
          rd_side := mean (srd.map Measurement.side),
          tb := (mean (slu.map Measurement.top) + mean (sru.map Measurement.top)
                 + mean (srd.map Measurement.top) + mean (sld.map Measurement.top)) / 4,
          mouth := mean (smo.map Measurement.mouth) } := by
  constructor
  · simp only [CalibrationManager.run_calibration,
      get_average_values_corner lu hlu, get_average_values_corner ru hru,
      get_average_values_corner rd hrd, get_average_values_corner ld hld,
      get_average_values_mouth mo hmo]
  · simp only [CalibrationSystem.run]
    rw [sys_fold_two slu _ hslu]
    simp only [CalibrationSystem.advance_stage]
    rw [sys_fold_four sru _ hsru]
    simp only [CalibrationSystem.advance_stage]
    rw [sys_fold_six srd _ hsrd]
    simp only [CalibrationSystem.advance_stage]
    rw [sys_fold_eight sld _ hsld]
    simp only [CalibrationSystem.advance_stage]
    rw [sys_fold_ten smo _ hsmo]
    simp [CalibrationSystem.finalize_calibration, CalibrationSystem.reset_calibration, mean]

/-- C2 witness: one-sample stages, evaluated through the theorem. -/
theorem claim2_witness :
    CalibrationManager.run_calibration
        [some ⟨1, 2, 0⟩] [some ⟨3, 4, 0⟩] [some ⟨5, 6, 0⟩] [some ⟨7, 8, 0⟩] [some ⟨0, 0, 2⟩]
      = some { lu_side := 1, ru_side := 3, ld_side := 7, rd_side := 5, tb := 5, mouth := 2 }
    ∧ CalibrationSystem.finalize_calibration
        (CalibrationSystem.run [⟨1, 2, 0⟩] [⟨3, 4, 0⟩] [⟨5, 6, 0⟩] [⟨7, 8, 0⟩] [⟨0, 0, 2⟩])
      = { lu_side := 1, ru_side := 3, ld_side := 7, rd_side := 5, tb := 5, mouth := 2 } := by
  have h := calibration_finalize_means
      [some ⟨1, 2, 0⟩] [some ⟨3, 4, 0⟩] [some ⟨5, 6, 0⟩] [some ⟨7, 8, 0⟩] [some ⟨0, 0, 2⟩]
      [⟨1, 2, 0⟩] [⟨3, 4, 0⟩] [⟨5, 6, 0⟩] [⟨7, 8, 0⟩] [⟨0, 0, 2⟩]
      (by simp) (by simp) (by simp) (by simp) (by simp)
      (by simp) (by simp) (by simp) (by simp) (by simp)
  refine ⟨?_, ?_⟩
  · rw [h.1]
    norm_num [mean, corner_sides, corner_tops, stage_mouths]
  · rw [h.2]
    norm_num [mean]

/-- C8: frames with no detected face are indeed skipped without accumulating
and without error; but a capture stage that collected zero samples makes
`get_average_values` divide by `sample_count = 0` (`ZeroDivisionError`,
modelled as `none`) when the 2.9-second dwell expires, and the exception
aborts `run_calibration` with failure — contrary to the claim, the stage does
not auto-advance and the session does fail. -/
theorem calibration_zero_samples_division :
    (CalibrationManager.collect_calibration_sample false
        CalibrationManager.reset_calibration_values none
      = CalibrationManager.reset_calibration_values)
    ∧ CalibrationManager.get_average_values false
        (CalibrationManager.run_stage false (List.replicate 5 none)) = none
    ∧ CalibrationManager.run_calibration (List.replicate 5 none)
        [some ⟨1, 1, 1⟩] [some ⟨1, 1, 1⟩] [some ⟨1, 1, 1⟩] [some ⟨1, 1, 1⟩] = none := by
  have hnone : CalibrationManager.get_average_values false
      (CalibrationManager.run_stage false (List.replicate 5 none)) = none := by
    rw [CalibrationManager.run_stage, run_stage_corner_spec]
    simp [CalibrationManager.get_average_values, CalibrationManager.reset_calibration_values]
  exact ⟨rfl, hnone, by simp only [CalibrationManager.run_calibration, hnone]⟩

/-! Section: Moving-average signal filter (C5) -/

/-- Embeds `MovingAverage` (`utils/utils.py` lines 11-41): a fixed-size buffer
(`values`, slots `0 … window_size-1`, initialised to `0.0`), a write `index`
for the circular phase and a fill `count`. -/
structure MovingAverage where
  window_size : ℕ
  values : ℕ → ℚ
  index : ℕ
  count : ℕ

/-- Embeds `MovingAverage.__init__`. -/
def MovingAverage.init (window_size : ℕ) : MovingAverage :=
  { window_size := window_size, values := fun _ => 0, index := 0, count := 0 }

/-- Embeds `MovingAverage.update` (`utils/utils.py` lines 20-31): while
`count < window_size`, write at slot `count` and return
`sum(values[:count]) / count`; once full, overwrite slot `index`, advance
`index` circularly and return `sum(values) / window_size`. -/
def MovingAverage.update (s : MovingAverage) (new_value : ℚ) : MovingAverage × ℚ :=
  if s.count < s.window_size then
    let values := Function.update s.values s.count new_value
    let count := s.count + 1
    ({ s with values := values, count := count },
      (∑ i in Finset.range count, values i) / (count : ℚ))
  else
    let values := Function.update s.values s.index new_value
    ({ s with values := values, index := (s.index + 1) % s.window_size },
      (∑ i in Finset.range s.window_size, values i) / (s.window_size : ℚ))

/-- The filter state after feeding a sequence of samples. -/
def MovingAverage.runState (s : MovingAverage) (xs : List ℚ) : MovingAverage :=
  xs.foldl (fun t x => (t.update x).1) s

/-- The value returned by the final `update` of a nonempty sample sequence
(`0` for the empty sequence). -/
def MovingAverage.lastOutput (s : MovingAverage) : List ℚ → ℚ
  | [] => 0
  | [x] => (s.update x).2
  | x :: y :: xs => MovingAverage.lastOutput (s.update x).1 (y :: xs)

/-- Embeds `moving_average` (`utils/data_processing.py` lines 6-10):
`0.0` for an empty list, else `sum(values) / len(values)`. -/
def moving_average (values : List ℚ) : ℚ :=
  if values = [] then 0 else values.sum / (values.length : ℚ)

/-- Embeds `rearrange_circular_buffer` (`utils/data_processing.py` lines
13-16): `buffer[1:] + [new_value]`. -/
def rearrange_circular_buffer (new_value : ℚ) (buffer : List ℚ) : List ℚ :=
  buffer.drop 1 ++ [new_value]

/-- One signal channel of the inline filtering of
`EyeTrackingSystem.process_frame` (`main_tracker.py` lines 27-30, 58-67):
the channel's buffer (initialised `[0.0] * MOVING_AVERAGE_WINDOW`) and the
shared `frame_count`. -/
structure TrackerFilter where
  buffer : List ℚ
  frame_count : ℕ
deriving DecidableEq, Repr

/-- The freshly constructed channel (`main_tracker.py` lines 27-30). -/
def EyeTrackingSystem.init_filter (window : ℕ) : TrackerFilter :=
  { buffer := List.replicate window 0, frame_count := 0 }

/-- Embeds the filtering step of `EyeTrackingSystem.process_frame`
(`main_tracker.py` lines 58-67) for one channel: while
`frame_count < window` the sample is stored in the buffer but the ratio is
left as the raw sample — no average is computed; once the count has reached
the window, the buffer is rotated with `rearrange_circular_buffer` and the
ratio is replaced by `moving_average(buffer)`.  Returns the new state and
the ratio used downstream. -/
def EyeTrackingSystem.process_filter (window : ℕ) (s : TrackerFilter)
    (ratio : ℚ) : TrackerFilter × ℚ :=
  if s.frame_count < window then
    ({ buffer := s.buffer.set s.frame_count ratio, frame_count := s.frame_count + 1 },
      ratio)
  else
    let buffer := rearrange_circular_buffer ratio s.buffer
    ({ s with buffer := buffer }, moving_average buffer)

/-- The channel state after a sequence of frames. -/
def EyeTrackingSystem.run_filter (window : ℕ) (s : TrackerFilter)
    (xs : List ℚ) : TrackerFilter :=
  xs.foldl (fun t x => (EyeTrackingSystem.process_filter window t x).1) s

/-- Characterization of the filter state after processing history `h` from a
fresh window-`W` filter: during warm-up the first `h.length` slots hold the
samples in order; once full, slot `(h.length + a) % W` holds the `a`-th
oldest of the last `W` samples. -/
def MovingAverage.Inv (W : ℕ) (h : List ℚ) (s : MovingAverage) : Prop :=
  s.window_size = W
  ∧ s.count = min h.length W
  ∧ s.index = (if h.length < W then 0 else h.length % W)
  ∧ (h.length < W → ∀ j : ℕ, s.values j = if j < h.length then h.getD j 0 else 0)
  ∧ (W ≤ h.length → ∀ a : ℕ, a < W →
      s.values ((h.length + a) % W) = h.getD (h.length - W + a) 0)

lemma getD_append_lt (l₁ l₂ : List ℚ) (i : ℕ) (hi : i < l₁.length) :
    (l₁ ++ l₂).getD i 0 = l₁.getD i 0 := by
  simp [List.getD_eq_getElem?_getD, List.getElem?_append, hi]

lemma getD_concat_self (l : List ℚ) (x : ℚ) :
    (l ++ [x]).getD l.length 0 = x := by
  simp [List.getD_eq_getElem?_getD, List.getElem?_append]

lemma list_sum_getD (l : List ℚ) :
    ∑ i in Finset.range l.length, l.getD i 0 = l.sum := by
  induction l with
  | nil => simp
  | cons a t ih =>
      rw [List.length_cons, Finset.sum_range_succ']
      simp only [List.getD_cons_succ, List.getD_cons_zero, List.sum_cons]
      rw [ih, add_comm]

lemma sum_getD_drop (l : List ℚ) (k : ℕ) :
    ∑ a in Finset.range (l.length - k), l.getD (k + a) 0 = (l.drop k).sum := by
  have hlen : (l.drop k).length = l.length - k := List.length_drop k l
  have h1 : ∀ a : ℕ, (l.drop k).getD a 0 = l.getD (k + a) 0 := by
    intro a
    simp [List.getD_eq_getElem?_getD, List.getElem?_drop]
  rw [← list_sum_getD (l.drop k), hlen]
  exact Finset.sum_congr rfl fun a _ => (h1 a).symm

lemma add_mod_ne (W n b : ℕ) (hb0 : 0 < b) (hbW : b < W) :
    (n + b) % W ≠ n % W := by
  intro hEq
  have h1 : (n + b) % W = (n + 0) % W := by simpa using hEq
  have h2 : b % W = 0 % W := Nat.ModEq.add_left_cancel' n h1
  have h3 : W ∣ b := by
    have : b % W = 0 := by simpa using h2
    exact Nat.dvd_of_mod_eq_zero this
  exact absurd (Nat.le_of_dvd hb0 h3) (not_le.mpr hbW)

lemma sum_range_rotate (W k : ℕ) (f : ℕ → ℚ) :
    ∑ a in Finset.range W, f ((k + a) % W) = ∑ i in Finset.range W, f i := by
  rcases Nat.eq_zero_or_pos W with hW | hW
  · subst hW; simp
  · have hsplit : W * (k / W + 1) = W * (k / W) + W := by ring
    have h2 := Nat.div_add_mod k W
    have h3 : k % W ≤ W := le_of_lt (Nat.mod_lt _ hW)
    have key : ∀ c : ℕ, c < W → (k + (c + (W - k % W)) % W) % W = c := by
      intro c hc
      rw [Nat.add_mod_mod]
      have h1 : k + (c + (W - k % W)) = c + W * (k / W + 1) := by omega
      rw [h1, Nat.add_mul_mod_self_left, Nat.mod_eq_of_lt hc]
    refine Finset.sum_nbij' (fun a => (k + a) % W) (fun b => (b + (W - k % W)) % W)
      ?_ ?_ ?_ ?_ ?_
    · intro a _
      exact Finset.mem_range.mpr (Nat.mod_lt _ hW)
    · intro b _
      exact Finset.mem_range.mpr (Nat.mod_lt _ hW)
    · intro a ha
      have ha' : a < W := Finset.mem_range.mp ha
      show ((k + a) % W + (W - k % W)) % W = a
      rw [Nat.mod_add_mod]
      have h1 : k + a + (W - k % W) = a + W * (k / W + 1) := by omega
      rw [h1, Nat.add_mul_mod_self_left, Nat.mod_eq_of_lt ha']
    · intro b hb
      show (k + (b + (W - k % W)) % W) % W = b
      exact key b (Finset.mem_range.mp hb)
    · intro a _
      rfl

lemma inv_init (W : ℕ) (hW : 0 < W) : MovingAverage.Inv W [] (MovingAverage.init W) := by
  refine ⟨rfl, by simp [MovingAverage.init], by simp [hW, MovingAverage.init], ?_, ?_⟩
  · intro _ j
    simp [MovingAverage.init]
  · intro hge
    exfalso
    simp only [List.length_nil, Nat.le_zero] at hge
    omega

lemma update_inv (W : ℕ) (hW : 0 < W) (h : List ℚ) (x : ℚ) (s : MovingAverage)
    (hs : MovingAverage.Inv W h s) : MovingAverage.Inv W (h ++ [x]) (s.update x).1 := by
  obtain ⟨hw, hc, hi, hg, hf⟩ := hs
  have hlen : (h ++ [x]).length = h.length + 1 := by simp
  rcases lt_or_ge h.length W with hnW | hnW
  · -- warm-up: count = h.length < W, so the growing branch runs
    have hcount : s.count = h.length := by rw [hc, min_eq_left (le_of_lt hnW)]
    have hcond : s.count < s.window_size := by rw [hw, hcount]; exact hnW
    have hidx : s.index = 0 := by rw [hi, if_pos hnW]
    have hupd : (s.update x).1
        = { s with values := Function.update s.values s.count x, count := s.count + 1 } := by
      rw [MovingAverage.update, if_pos hcond]
    rw [hupd]
    refine ⟨hw, ?_, ?_, ?_, ?_⟩
    · show s.count + 1 = min (h ++ [x]).length W
      rw [hcount, hlen, min_eq_left (by omega)]
    · show s.index = if (h ++ [x]).length < W then 0 else (h ++ [x]).length % W
      rw [hidx, hlen]
      rcases lt_or_eq_of_le (Nat.succ_le_of_lt hnW) with hlt | heq
      · rw [if_pos hlt]
      · have heq' : h.length + 1 = W := heq
        rw [if_neg (by omega), heq', Nat.mod_self]
    · intro hlt j
      show Function.update s.values s.count x j
          = if j < (h ++ [x]).length then (h ++ [x]).getD j 0 else 0
      rw [hlen] at hlt ⊢
      rw [hcount]
      by_cases hj : j = h.length
      · subst hj
        rw [Function.update_same, if_pos (by omega), getD_concat_self]
      · rw [Function.update_noteq hj, hg hnW j]
        by_cases hjn : j < h.length
        · rw [if_pos hjn, if_pos (by omega), getD_append_lt _ _ _ hjn]
        · rw [if_neg hjn, if_neg (by omega)]
    · intro hge a ha
      show Function.update s.values s.count x (((h ++ [x]).length + a) % W)
          = (h ++ [x]).getD ((h ++ [x]).length - W + a) 0
      rw [hlen] at hge ⊢
      have hWn : W = h.length + 1 := by omega
      have hslot : (h.length + 1 + a) % W = a := by
        have h1 : h.length + 1 + a = a + W := by omega
        rw [h1, Nat.add_mod_right, Nat.mod_eq_of_lt ha]
      have hoff : h.length + 1 - W + a = a := by omega
      rw [hslot, hoff, hcount]
      by_cases hj : a = h.length
      · subst hj
        rw [Function.update_same, getD_concat_self]
      · have hjn : a < h.length := by omega
        rw [Function.update_noteq hj, hg hnW a, if_pos hjn, getD_append_lt _ _ _ hjn]
  · -- circular phase: count = W, overwrite at index = h.length % W
    have hcount : s.count = W := by rw [hc, min_eq_right hnW]
    have hcond : ¬ s.count < s.window_size := by rw [hw, hcount]; exact lt_irrefl W
    have hidx : s.index = h.length % W := by rw [hi, if_neg (not_lt.mpr hnW)]
    have hupd : (s.update x).1
        = { s with
            values := Function.update s.values s.index x
            index := (s.index + 1) % s.window_size } := by
      rw [MovingAverage.update, if_neg hcond]
    rw [hupd]
    refine ⟨hw, ?_, ?_, ?_, ?_⟩
    · show s.count = min (h ++ [x]).length W
      rw [hcount, hlen, min_eq_right (by omega)]
    · show (s.index + 1) % s.window_size
          = if (h ++ [x]).length < W then 0 else (h ++ [x]).length % W
      rw [hidx, hw, hlen, if_neg (by omega), Nat.mod_add_mod]
    · intro hlt
      rw [hlen] at hlt
      omega
    · intro _ a ha
      show Function.update s.values s.index x (((h ++ [x]).length + a) % W)
          = (h ++ [x]).getD ((h ++ [x]).length - W + a) 0
      rw [hlen, hidx]
      by_cases hlast : a = W - 1
      · subst hlast
        have hslot : (h.length + 1 + (W - 1)) % W = h.length % W := by
          have h1 : h.length + 1 + (W - 1) = h.length + W := by omega
          rw [h1, Nat.add_mod_right]
        have hoff : h.length + 1 - W + (W - 1) = h.length := by omega
        rw [hslot, hoff, Function.update_same, getD_concat_self]
      · have hslot_ne : (h.length + 1 + a) % W ≠ h.length % W := by
          have h1 : h.length + 1 + a = h.length + (1 + a) := by omega
          rw [h1]
          exact add_mod_ne W h.length (1 + a) (by omega) (by omega)
        rw [Function.update_noteq hslot_ne]
        have hstep : h.length + 1 + a = h.length + (a + 1) := by omega
        rw [hstep, hf hnW (a + 1) (by omega)]
        have hidx2 : h.length + 1 - W + a = h.length - W + (a + 1) := by omega
        rw [hidx2, getD_append_lt _ _ _ (by omega)]

lemma update_out (W : ℕ) (hW : 0 < W) (h : List ℚ) (x : ℚ) (s : MovingAverage)
    (hs : MovingAverage.Inv W h s) :
    (s.update x).2
      = if h.length + 1 ≤ W then (h ++ [x]).sum / ((h.length + 1 : ℕ) : ℚ)
        else ((h ++ [x]).drop (h.length + 1 - W)).sum / (W : ℚ) := by
  obtain ⟨hw, hc, hi, hg, hf⟩ := hs
  rcases lt_or_ge h.length W with hnW | hnW
  · have hcount : s.count = h.length := by rw [hc, min_eq_left (le_of_lt hnW)]
    have hcond : s.count < s.window_size := by rw [hw, hcount]; exact hnW
    have hout : (s.update x).2
        = (∑ i in Finset.range (s.count + 1), Function.update s.values s.count x i)
            / ((s.count + 1 : ℕ) : ℚ) := by
      rw [MovingAverage.update, if_pos hcond]
    rw [hout, hcount, if_pos (by omega)]
    congr 1
    have hvals : ∀ i, i < h.length + 1 →
        Function.update s.values h.length x i = (h ++ [x]).getD i 0 := by
      intro i hi2
      by_cases hieq : i = h.length
      · subst hieq
        rw [Function.update_same, getD_concat_self]
      · have hlt : i < h.length := by omega
        rw [Function.update_noteq hieq, hg hnW i, if_pos hlt, getD_append_lt _ _ _ hlt]
    calc ∑ i in Finset.range (h.length + 1), Function.update s.values h.length x i
        = ∑ i in Finset.range (h.length + 1), (h ++ [x]).getD i 0 :=
          Finset.sum_congr rfl fun i hi2 => hvals i (Finset.mem_range.mp hi2)
      _ = (h ++ [x]).sum := by
          have hsum := list_sum_getD (h ++ [x])
          simpa using hsum
  · have hcount : s.count = W := by rw [hc, min_eq_right hnW]
    have hcond : ¬ s.count < s.window_size := by rw [hw, hcount]; exact lt_irrefl W
    have hidx : s.index = h.length % W := by rw [hi, if_neg (not_lt.mpr hnW)]
    have hout : (s.update x).2
        = (∑ i in Finset.range s.window_size, Function.update s.values s.index x i)
            / ((s.window_size : ℕ) : ℚ) := by
      rw [MovingAverage.update, if_neg hcond]
    rw [hout, hw, if_neg (by omega)]
    congr 1
    have hinv2 := update_inv W hW h x s ⟨hw, hc, hi, hg, hf⟩
    obtain ⟨_, _, _, _, hf2⟩ := hinv2
    have hupdv : (s.update x).1.values = Function.update s.values s.index x := by
      rw [MovingAverage.update, if_neg hcond]
    rw [hupdv] at hf2
    have hlen2 : (h ++ [x]).length = h.length + 1 := by simp
    rw [hlen2] at hf2
    have hfa : ∀ a, a < W →
        Function.update s.values s.index x ((h.length + 1 + a) % W)
          = (h ++ [x]).getD (h.length + 1 - W + a) 0 :=
      fun a ha => hf2 (by omega) a ha
    calc ∑ i in Finset.range W, Function.update s.values s.index x i
        = ∑ a in Finset.range W,
            Function.update s.values s.index x ((h.length + 1 + a) % W) :=
          (sum_range_rotate W (h.length + 1) _).symm
      _ = ∑ a in Finset.range W, (h ++ [x]).getD (h.length + 1 - W + a) 0 :=
          Finset.sum_congr rfl fun a ha => hfa a (Finset.mem_range.mp ha)
      _ = ((h ++ [x]).drop (h.length + 1 - W)).sum := by
          have hdrop := sum_getD_drop (h ++ [x]) (h.length + 1 - W)
          have hWrange : (h ++ [x]).length - (h.length + 1 - W) = W := by
            rw [hlen2]
            omega
          rw [hWrange] at hdrop
          exact hdrop

lemma runState_inv (W : ℕ) (hW : 0 < W) :
    ∀ (xs h : List ℚ) (s : MovingAverage), MovingAverage.Inv W h s →
      MovingAverage.Inv W (h ++ xs) (s.runState xs) := by
  intro xs
  induction xs with
  | nil =>
      intro h s hs
      simpa [MovingAverage.runState] using hs
  | cons x t ih =>
      intro h s hs
      have h1 := update_inv W hW h x s hs
      have h2 := ih (h ++ [x]) (s.update x).1 h1
      have h3 : MovingAverage.runState s (x :: t)
          = MovingAverage.runState (s.update x).1 t := rfl
      rw [h3]
      simpa [List.append_assoc] using h2

lemma lastOutput_concat (h : List ℚ) :
    ∀ (s : MovingAverage) (x : ℚ),
      MovingAverage.lastOutput s (h ++ [x]) = ((s.runState h).update x).2 := by
  induction h with
  | nil =>
      intro s x
      simp [MovingAverage.lastOutput, MovingAverage.runState]
  | cons a t ih =>
      intro s x
      rcases t with _ | ⟨b, t2⟩
      · simp [MovingAverage.lastOutput, MovingAverage.runState]
      · show MovingAverage.lastOutput (s.update a).1 ((b :: t2) ++ [x])
            = ((MovingAverage.runState s (a :: b :: t2)).update x).2
        rw [ih]
        rfl

/-- The value of the final `update`: the growing mean during warm-up, the mean
of the last `W` samples afterwards. -/
lemma lastOutput_spec (W : ℕ) (hW : 0 < W) (ys : List ℚ) (hy : ys ≠ []) :
    (MovingAverage.init W).lastOutput ys
      = if ys.length ≤ W then ys.sum / (ys.length : ℚ)
        else ((ys.drop (ys.length - W)).sum) / (W : ℚ) := by
  have hsplit := List.dropLast_append_getLast hy
  rw [← hsplit, lastOutput_concat]
  have hinv : MovingAverage.Inv W ys.dropLast
      ((MovingAverage.init W).runState ys.dropLast) := by
    have hr := runState_inv W hW ys.dropLast [] (MovingAverage.init W) (inv_init W hW)
    simpa using hr
  rw [update_out W hW ys.dropLast (ys.getLast hy) _ hinv]
  simp [List.length_append]

lemma set_append_length (l₂ : List ℚ) (x : ℚ) :
    ∀ l₁ : List ℚ, (l₁ ++ l₂).set l₁.length x = l₁ ++ l₂.set 0 x := by
  intro l₁
  induction l₁ with
  | nil => rfl
  | cons a t ih =>
      simp only [List.cons_append, List.length_cons, List.set_cons_succ, ih]

/-- The state of the `main_tracker` inline filter after `xs` frames from the
initial state: the first `min xs.length W` buffer slots hold the samples in
order (zero padding beyond); once full, the buffer holds exactly the last
`W` samples. -/
lemma tracker_state_spec (W : ℕ) (hW : 0 < W) (xs : List ℚ) :
    (EyeTrackingSystem.run_filter W (EyeTrackingSystem.init_filter W) xs).frame_count
        = min xs.length W
    ∧ (EyeTrackingSystem.run_filter W (EyeTrackingSystem.init_filter W) xs).buffer
        = (if xs.length < W then xs ++ List.replicate (W - xs.length) 0
            else xs.drop (xs.length - W)) := by
  induction xs using List.reverseRecOn with
  | nil =>
      refine ⟨by simp [EyeTrackingSystem.run_filter, EyeTrackingSystem.init_filter], ?_⟩
      simp [EyeTrackingSystem.run_filter, EyeTrackingSystem.init_filter, hW]
  | append_singleton h x ih =>
      obtain ⟨hc, hb⟩ := ih
      have hstep : EyeTrackingSystem.run_filter W (EyeTrackingSystem.init_filter W) (h ++ [x])
          = (EyeTrackingSystem.process_filter W
              (EyeTrackingSystem.run_filter W (EyeTrackingSystem.init_filter W) h) x).1 := by
        simp [EyeTrackingSystem.run_filter, List.foldl_append]
      have hlen : (h ++ [x]).length = h.length + 1 := by simp
      rcases lt_or_ge h.length W with hnW | hnW
      · -- warm-up step: store at slot h.length, pass through
        have hc' : (EyeTrackingSystem.run_filter W (EyeTrackingSystem.init_filter W)
            h).frame_count = h.length := by rw [hc, min_eq_left (le_of_lt hnW)]
        have hbuf : (EyeTrackingSystem.run_filter W (EyeTrackingSystem.init_filter W)
            h).buffer = h ++ List.replicate (W - h.length) 0 := by
          rw [hb, if_pos hnW]
        rw [hstep, EyeTrackingSystem.process_filter, if_pos (by rw [hc']; exact hnW)]
        constructor
        · show (EyeTrackingSystem.run_filter W (EyeTrackingSystem.init_filter W)
              h).frame_count + 1 = min (h ++ [x]).length W
          rw [hc', hlen, min_eq_left (by omega)]
        · show (EyeTrackingSystem.run_filter W (EyeTrackingSystem.init_filter W)
              h).buffer.set (EyeTrackingSystem.run_filter W (EyeTrackingSystem.init_filter W)
                h).frame_count x = _
          rw [hc', hbuf, set_append_length]
          have hrep : (List.replicate (W - h.length) (0 : ℚ)).set 0 x
              = x :: List.replicate (W - h.length - 1) 0 := by
            have hpos : W - h.length = (W - h.length - 1) + 1 := by omega
            rw [hpos, List.replicate_succ]
            rfl
          rw [hrep, hlen]
          rcases lt_or_ge (h.length + 1) W with hlt | hge
          · rw [if_pos hlt]
            have h1 : W - h.length - 1 = W - (h.length + 1) := by omega
            rw [h1]
            simp
          · rw [if_neg (not_lt.mpr hge)]
            have h1 : W - h.length - 1 = 0 := by omega
            have h2 : h.length + 1 - W = 0 := by omega
            rw [h1, h2]
            simp
      · -- full step: rotate and average
        have hc' : (EyeTrackingSystem.run_filter W (EyeTrackingSystem.init_filter W)
            h).frame_count = W := by rw [hc, min_eq_right hnW]
        have hbuf : (EyeTrackingSystem.run_filter W (EyeTrackingSystem.init_filter W)
            h).buffer = h.drop (h.length - W) := by
          rw [hb, if_neg (not_lt.mpr hnW)]
        rw [hstep, EyeTrackingSystem.process_filter,
          if_neg (by rw [hc']; exact lt_irrefl W)]
        constructor
        · show (EyeTrackingSystem.run_filter W (EyeTrackingSystem.init_filter W)
              h).frame_count = min (h ++ [x]).length W
          rw [hc', hlen, min_eq_right (by omega)]
        · show rearrange_circular_buffer x (EyeTrackingSystem.run_filter W
              (EyeTrackingSystem.init_filter W) h).buffer = _
          rw [hbuf, rearrange_circular_buffer, List.drop_drop, hlen,
            if_neg (by omega)]
          rw [List.drop_append_eq_append_drop]
          have h1 : h.length - W + 1 = h.length + 1 - W := by omega
          have h2 : h.length + 1 - W - h.length = 0 := by omega
          rw [h1, h2]
          simp

/-- C5 (amended): `MovingAverage` (`utils/utils.py`) behaves exactly as
claimed — fed any sample sequence it returns the growing mean of all samples
seen so far while fewer than `W` have been seen (no zero-padding bias), the
mean of the last `W` inputs once full, and consequently a constant `v` fed
for at least `W` updates after any prior history yields exactly `v`.  The
inline filter of `main_tracker.process_frame`, however, matches only the
full phase: during its first `W` frames it stores the sample but passes the
raw ratio through unchanged instead of returning the growing mean; from
frame `W + 1` on it yields the mean of the last `W` samples. -/
theorem moving_average_spec (W : ℕ) (hW : 0 < W) (xs : List ℚ) (v : ℚ) (u : ℕ) :
    (xs ≠ [] → xs.length ≤ W →
        (MovingAverage.init W).lastOutput xs = xs.sum / (xs.length : ℚ))
    ∧ (W ≤ xs.length →
        (MovingAverage.init W).lastOutput xs
          = ((xs.drop (xs.length - W)).sum) / (W : ℚ))
    ∧ (W ≤ u →
        (MovingAverage.init W).lastOutput (xs ++ List.replicate u v) = v)
    ∧ (∀ (s : TrackerFilter) (ratio : ℚ), s.frame_count < W →
        (EyeTrackingSystem.process_filter W s ratio).2 = ratio)
    ∧ (W ≤ xs.length →
        (EyeTrackingSystem.process_filter W
            (EyeTrackingSystem.run_filter W (EyeTrackingSystem.init_filter W) xs) v).2
          = ((xs ++ [v]).drop (xs.length + 1 - W)).sum / (W : ℚ)) := by
  have hW0 : (W : ℚ) ≠ 0 := Nat.cast_ne_zero.mpr (by omega)
  refine ⟨?_, ?_, ?_, ?_, ?_⟩
  · intro hne hle
    rw [lastOutput_spec W hW xs hne, if_pos hle]
  · intro hge
    have hne : xs ≠ [] := by
      intro hcon
      rw [hcon] at hge
      simp at hge
      omega
    rw [lastOutput_spec W hW xs hne]
    rcases eq_or_lt_of_le hge with heq | hlt
    · rw [if_pos (le_of_eq heq.symm), ← heq]
      simp
    · rw [if_neg (by omega)]
  · intro hu
    have hlen : (xs ++ List.replicate u v).length = xs.length + u := by simp
    have hne : xs ++ List.replicate u v ≠ [] := by
      intro hcon
      have hcon2 := congrArg List.length hcon
      rw [hlen] at hcon2
      simp at hcon2
      omega
    rw [lastOutput_spec W hW _ hne]
    by_cases hcase : (xs ++ List.replicate u v).length ≤ W
    · rw [if_pos hcase]
      rw [hlen] at hcase
      have hxs : xs = [] := List.length_eq_zero.mp (by omega)
      have hu0 : u ≠ 0 := by omega
      subst hxs
      rw [List.nil_append, List.sum_replicate u v, nsmul_eq_mul]
      simp only [List.length_replicate]
      exact mul_div_cancel_left₀ v (Nat.cast_ne_zero.mpr hu0)
    · rw [if_neg hcase]
      have hdropeq : (xs ++ List.replicate u v).drop ((xs ++ List.replicate u v).length - W)
          = List.replicate W v := by
        rw [hlen]
        have h3 : xs.length + u - W = xs.length + (u - W) := by omega
        rw [h3, List.drop_append, List.drop_replicate]
        have h4 : u - (u - W) = W := by omega
        rw [h4]
      rw [hdropeq, List.sum_replicate W v, nsmul_eq_mul]
      exact mul_div_cancel_left₀ v hW0
  · intro s ratio hcount
    rw [EyeTrackingSystem.process_filter, if_pos hcount]
  · intro hge
    obtain ⟨hc, hb⟩ := tracker_state_spec W hW xs
    have hcount : (EyeTrackingSystem.run_filter W
        (EyeTrackingSystem.init_filter W) xs).frame_count = W := by
      rw [hc, min_eq_right hge]
    have hbuf : (EyeTrackingSystem.run_filter W
        (EyeTrackingSystem.init_filter W) xs).buffer = xs.drop (xs.length - W) := by
      rw [hb, if_neg (not_lt.mpr hge)]
    rw [EyeTrackingSystem.process_filter, if_neg (by rw [hcount]; exact lt_irrefl W)]
    show moving_average (rearrange_circular_buffer v
        (EyeTrackingSystem.run_filter W (EyeTrackingSystem.init_filter W) xs).buffer) = _
    rw [hbuf, rearrange_circular_buffer, List.drop_drop]
    have h1 : xs.length - W + 1 = xs.length + 1 - W := by omega
    rw [h1, moving_average, if_neg (by simp)]
    have hlen3 : (xs.drop (xs.length + 1 - W) ++ [v]).length = W := by
      simp only [List.length_append, List.length_drop, List.length_singleton]
      omega
    rw [hlen3]
    congr 1
    rw [List.drop_append_eq_append_drop]
    have h2 : xs.length + 1 - W - xs.length = 0 := by omega
    rw [h2]
    simp

/-- C5 counterexample: the inline filter of `main_tracker.process_frame`
(window 9, the configured `MOVING_AVERAGE_WINDOW`), fed the samples `1` then
`3`, passes the second sample through as `3` — not the growing mean
`(1 + 3) / 2 = 2` the claim requires while fewer than `W` samples have been
seen. -/
theorem claim5_counterexample :
    (EyeTrackingSystem.process_filter 9
        ((EyeTrackingSystem.process_filter 9 (EyeTrackingSystem.init_filter 9) 1).1)
        3).2 = 3
    ∧ (3 : ℚ) ≠ (1 + 3) / 2 := by
  constructor
  · have h1 : ((EyeTrackingSystem.process_filter 9
        (EyeTrackingSystem.init_filter 9) 1).1).frame_count = 1 := by
      simp [EyeTrackingSystem.process_filter, EyeTrackingSystem.init_filter]
    rw [EyeTrackingSystem.process_filter, if_pos (by rw [h1]; norm_num)]
  · norm_num

/-- C5 witness: `W = 2` — `MovingAverage` on input `[1, 2, 3]` returns the
mean of the last two samples, `5/2`; the `main_tracker` filter passes a
warm-up sample through raw, and once full also returns the window mean. -/
theorem claim5_witness :
    (MovingAverage.init 2).lastOutput [1, 2, 3]
        = ((([1, 2, 3] : List ℚ).drop ([1, 2, 3].length - 2)).sum) / ((2 : ℕ) : ℚ)
    ∧ (MovingAverage.init 2).lastOutput [1, 2, 3] = 5/2
    ∧ (EyeTrackingSystem.process_filter 2
        { buffer := [0, 0], frame_count := 1 } 7).2 = 7
    ∧ (EyeTrackingSystem.process_filter 2
        (EyeTrackingSystem.run_filter 2 (EyeTrackingSystem.init_filter 2) [1, 2]) 3).2
      = ((([1, 2] : List ℚ) ++ [3]).drop ([1, 2].length + 1 - 2)).sum / ((2 : ℕ) : ℚ)
    ∧ (EyeTrackingSystem.process_filter 2
        (EyeTrackingSystem.run_filter 2 (EyeTrackingSystem.init_filter 2) [1, 2]) 3).2
      = 5/2 := by
  refine ⟨?_, ?_, ?_, ?_, ?_⟩
  · exact (moving_average_spec 2 (by norm_num) [1, 2, 3] 0 0).2.1 (by norm_num)
  · show ((((MovingAverage.init 2).update 1).1.update 2).1.update 3).2 = 5/2
    norm_num [MovingAverage.init, MovingAverage.update, Function.update,
      Finset.sum_range_succ]
  · exact (moving_average_spec 2 (by norm_num) [1, 2] 3 0).2.2.2.1
      { buffer := [0, 0], frame_count := 1 } 7 (by norm_num)
  · exact (moving_average_spec 2 (by norm_num) [1, 2] 3 0).2.2.2.2 (by norm_num)
  · norm_num [EyeTrackingSystem.process_filter, EyeTrackingSystem.run_filter,
      EyeTrackingSystem.init_filter, rearrange_circular_buffer, moving_average,
      List.foldl, List.set, List.cons_ne_nil]

end EyeAssist
